import Mathlib

/-!
Verification of the natural-language question pipeline of the
"Cien años de soledad" repository (`src/nlpProcessor.js` and
`src/routes/preguntas.js`).

The JavaScript code is shallowly embedded: strings become `String`
(worked on through `String.data : List Char`), MongoDB documents become
structures with `Nat` ids, and every store read that can fail is an
`Except Unit` value.  The Unicode tables used by
`toLowerCase()` / `normalize('NFD')` are restricted to the ASCII range and
the Spanish accented letters (á é í ó ú ü ñ and their capitals), which is
the alphabet the corpus and the question templates use; on every other
character both operations act as the identity, and combining marks
U+0300–U+036F are removed exactly as in the source.
-/

namespace Cien

/-- Combining diacritical marks, the range removed by
`.replace(/[̀-ͯ]/g, '')` in `limpiarTexto`. -/
def isCombining (c : Char) : Bool :=
  decide (0x300 ≤ c.toNat ∧ c.toNat ≤ 0x36F)

/-- Character-level model of JavaScript `toLowerCase()`: ASCII letters are
shifted, the Spanish accented capitals are mapped to their lowercase
forms, and every other character is left unchanged. -/
def toLowerChar (c : Char) : Char :=
  if 0x41 ≤ c.toNat ∧ c.toNat ≤ 0x5A then Char.ofNat (c.toNat + 32)
  else if c.toNat = 0xC1 then 'á'
  else if c.toNat = 0xC9 then 'é'
  else if c.toNat = 0xCD then 'í'
  else if c.toNat = 0xD3 then 'ó'
  else if c.toNat = 0xDA then 'ú'
  else if c.toNat = 0xDC then 'ü'
  else if c.toNat = 0xD1 then 'ñ'
  else c

/-- U+0301 COMBINING ACUTE ACCENT. -/
def markAcute : Char := Char.ofNat 0x301

/-- U+0308 COMBINING DIAERESIS. -/
def markDiaer : Char := Char.ofNat 0x308

/-- U+0303 COMBINING TILDE. -/
def markTilde : Char := Char.ofNat 0x303

/-- Character-level model of `normalize('NFD')`: each accented lowercase
Spanish letter decomposes into its base letter followed by a combining
mark; all other characters are unchanged.  (In `limpiarTexto` NFD runs on
text that `toLowerCase()` has already processed, so only the lowercase
decompositions are ever reached.) -/
def nfdChar (c : Char) : List Char :=
  if c.toNat = 0xE1 then ['a', markAcute]
  else if c.toNat = 0xE9 then ['e', markAcute]
  else if c.toNat = 0xED then ['i', markAcute]
  else if c.toNat = 0xF3 then ['o', markAcute]
  else if c.toNat = 0xFA then ['u', markAcute]
  else if c.toNat = 0xFC then ['u', markDiaer]
  else if c.toNat = 0xF1 then ['n', markTilde]
  else [c]

/-- One character pushed through the whole `limpiarTexto` pipeline:
lowercase, NFD decomposition, removal of combining marks. -/
def foldChar (c : Char) : List Char :=
  (nfdChar (toLowerChar c)).filter (fun x => !isCombining x)

/-- The `limpiarTexto` pipeline on a character list:
`str.toLowerCase().normalize('NFD').replace(/[̀-ͯ]/g, '')`
(nlpProcessor.js lines 94–99). -/
def cleanChars (l : List Char) : List Char :=
  ((l.map toLowerChar).flatMap nfdChar).filter (fun x => !isCombining x)

/-- `limpiarTexto` from nlpProcessor.js: case + diacritic folding
(the spec's `fold`). -/
def limpiarTexto (s : String) : String :=
  ⟨cleanChars s.data⟩

theorem cleanChars_eq_flatMap (l : List Char) :
    cleanChars l = l.flatMap foldChar := by
  induction l with
  | nil => rfl
  | cons c l ih =>
      simp only [cleanChars, List.map_cons, List.flatMap_cons, List.filter_append] at *
      simp only [foldChar, ih]

theorem foldChar_fix (c : Char) : ∀ d ∈ foldChar c, foldChar d = [d] := by
  intro d hd
  rw [foldChar] at hd
  by_cases h1 : 0x41 ≤ c.toNat ∧ c.toNat ≤ 0x5A
  · rw [show toLowerChar c = Char.ofNat (c.toNat + 32) from by
      rw [toLowerChar, if_pos h1]] at hd
    obtain ⟨h1a, h1b⟩ := h1
    have hv : (Char.ofNat (c.toNat + 32)).toNat = c.toNat + 32 := by
      generalize c.toNat = n at h1a h1b
      interval_cases n <;> decide
    have hnb : nfdChar (Char.ofNat (c.toNat + 32)) = [Char.ofNat (c.toNat + 32)] := by
      rw [nfdChar]
      iterate 7 rw [if_neg (by omega)]
    rw [hnb] at hd
    have hcomb : isCombining (Char.ofNat (c.toNat + 32)) = false := by
      simp only [isCombining, decide_eq_false_iff_not]
      omega
    simp only [List.filter_cons, hcomb, Bool.not_false, List.filter_nil,
      List.mem_singleton, if_true] at hd
    subst hd
    rw [foldChar, show toLowerChar (Char.ofNat (c.toNat + 32)) = Char.ofNat (c.toNat + 32) from by
      rw [toLowerChar]
      iterate 8 rw [if_neg (by omega)]]
    rw [hnb.symm.trans rfl, hnb]
    simp only [List.filter_cons, hcomb, Bool.not_false, List.filter_nil, if_true]
  · rw [show toLowerChar c = (if c.toNat = 0xC1 then 'á' else if c.toNat = 0xC9 then 'é'
      else if c.toNat = 0xCD then 'í' else if c.toNat = 0xD3 then 'ó'
      else if c.toNat = 0xDA then 'ú' else if c.toNat = 0xDC then 'ü'
      else if c.toNat = 0xD1 then 'ñ' else c) from by rw [toLowerChar, if_neg h1]] at hd
    by_cases h2 : c.toNat = 0xC1
    · rw [if_pos h2] at hd
      rw [show List.filter (fun x => !isCombining x) (nfdChar 'á') = ['a'] from by decide,
        List.mem_singleton] at hd
      subst hd; decide
    rw [if_neg h2] at hd
    by_cases h3 : c.toNat = 0xC9
    · rw [if_pos h3] at hd
      rw [show List.filter (fun x => !isCombining x) (nfdChar 'é') = ['e'] from by decide,
        List.mem_singleton] at hd
      subst hd; decide
    rw [if_neg h3] at hd
    by_cases h4 : c.toNat = 0xCD
    · rw [if_pos h4] at hd
      rw [show List.filter (fun x => !isCombining x) (nfdChar 'í') = ['i'] from by decide,
        List.mem_singleton] at hd
      subst hd; decide
    rw [if_neg h4] at hd
    by_cases h5 : c.toNat = 0xD3
    · rw [if_pos h5] at hd
      rw [show List.filter (fun x => !isCombining x) (nfdChar 'ó') = ['o'] from by decide,
        List.mem_singleton] at hd
      subst hd; decide
    rw [if_neg h5] at hd
    by_cases h6 : c.toNat = 0xDA
    · rw [if_pos h6] at hd
      rw [show List.filter (fun x => !isCombining x) (nfdChar 'ú') = ['u'] from by decide,
        List.mem_singleton] at hd
      subst hd; decide
    rw [if_neg h6] at hd
    by_cases h7 : c.toNat = 0xDC
    · rw [if_pos h7] at hd
      rw [show List.filter (fun x => !isCombining x) (nfdChar 'ü') = ['u'] from by decide,
        List.mem_singleton] at hd
      subst hd; decide
    rw [if_neg h7] at hd
    by_cases h8 : c.toNat = 0xD1
    · rw [if_pos h8] at hd
      rw [show List.filter (fun x => !isCombining x) (nfdChar 'ñ') = ['n'] from by decide,
        List.mem_singleton] at hd
      subst hd; decide
    rw [if_neg h8] at hd
    -- default: the character is left alone by toLowerCase
    by_cases h9 : c.toNat = 0xE1
    · rw [show nfdChar c = ['a', markAcute] from by rw [nfdChar, if_pos h9]] at hd
      rw [show List.filter (fun x => !isCombining x) ['a', markAcute] = ['a'] from by decide,
        List.mem_singleton] at hd
      subst hd; decide
    by_cases h10 : c.toNat = 0xE9
    · rw [show nfdChar c = ['e', markAcute] from by rw [nfdChar, if_neg h9, if_pos h10]] at hd
      rw [show List.filter (fun x => !isCombining x) ['e', markAcute] = ['e'] from by decide,
        List.mem_singleton] at hd
      subst hd; decide
    by_cases h11 : c.toNat = 0xED
    · rw [show nfdChar c = ['i', markAcute] from by
        rw [nfdChar, if_neg h9, if_neg h10, if_pos h11]] at hd
      rw [show List.filter (fun x => !isCombining x) ['i', markAcute] = ['i'] from by decide,
        List.mem_singleton] at hd
      subst hd; decide
    by_cases h12 : c.toNat = 0xF3
    · rw [show nfdChar c = ['o', markAcute] from by
        rw [nfdChar, if_neg h9, if_neg h10, if_neg h11, if_pos h12]] at hd
      rw [show List.filter (fun x => !isCombining x) ['o', markAcute] = ['o'] from by decide,
        List.mem_singleton] at hd
      subst hd; decide
    by_cases h13 : c.toNat = 0xFA
    · rw [show nfdChar c = ['u', markAcute] from by
        rw [nfdChar, if_neg h9, if_neg h10, if_neg h11, if_neg h12, if_pos h13]] at hd
      rw [show List.filter (fun x => !isCombining x) ['u', markAcute] = ['u'] from by decide,
        List.mem_singleton] at hd
      subst hd; decide
    by_cases h14 : c.toNat = 0xFC
    · rw [show nfdChar c = ['u', markDiaer] from by
        rw [nfdChar, if_neg h9, if_neg h10, if_neg h11, if_neg h12, if_neg h13, if_pos h14]] at hd
      rw [show List.filter (fun x => !isCombining x) ['u', markDiaer] = ['u'] from by decide,
        List.mem_singleton] at hd
      subst hd; decide
    by_cases h15 : c.toNat = 0xF1
    · rw [show nfdChar c = ['n', markTilde] from by
        rw [nfdChar, if_neg h9, if_neg h10, if_neg h11, if_neg h12, if_neg h13, if_neg h14,
          if_pos h15]] at hd
      rw [show List.filter (fun x => !isCombining x) ['n', markTilde] = ['n'] from by decide,
        List.mem_singleton] at hd
      subst hd; decide
    rw [show nfdChar c = [c] from by
      rw [nfdChar, if_neg h9, if_neg h10, if_neg h11, if_neg h12, if_neg h13, if_neg h14,
        if_neg h15]] at hd
    rw [List.filter_cons] at hd
    by_cases hc : isCombining c = true
    · rw [hc] at hd; simp at hd
    have hcf : isCombining c = false := by revert hc; cases isCombining c <;> simp
    rw [hcf] at hd
    simp only [Bool.not_false, List.filter_nil, if_true, List.mem_singleton] at hd
    rw [hd]
    rw [foldChar, show toLowerChar c = c from by
      rw [toLowerChar, if_neg h1, if_neg h2, if_neg h3, if_neg h4, if_neg h5, if_neg h6,
        if_neg h7, if_neg h8]]
    rw [show nfdChar c = [c] from by
      rw [nfdChar, if_neg h9, if_neg h10, if_neg h11, if_neg h12, if_neg h13, if_neg h14,
        if_neg h15]]
    simp only [List.filter_cons, hcf, Bool.not_false, List.filter_nil, if_true]

theorem cleanChars_fixed (l : List Char) (h : ∀ d ∈ l, foldChar d = [d]) :
    cleanChars l = l := by
  rw [cleanChars_eq_flatMap]
  induction l with
  | nil => rfl
  | cons c l ih =>
      rw [List.flatMap_cons, h c (List.mem_cons_self c l),
        ih (fun d hd => h d (List.mem_cons_of_mem c hd))]
      rfl

/-- C9: the fold operation (`limpiarTexto`, case + diacritic folding) is
idempotent: `fold(fold(x)) = fold(x)` for every string `x`. -/
theorem limpiarTexto_idempotent (s : String) :
    limpiarTexto (limpiarTexto s) = limpiarTexto s := by
  show (⟨cleanChars (cleanChars s.data)⟩ : String) = ⟨cleanChars s.data⟩
  rw [cleanChars_fixed]
  intro d hd
  rw [cleanChars_eq_flatMap] at hd
  obtain ⟨c, _, hdc⟩ := List.mem_flatMap.mp hd
  exact foldChar_fix c d hdc

/-- JavaScript whitespace class (`\s`, also the set removed by
`String.trim()`). -/
def isJsWS (c : Char) : Bool :=
  decide (c.toNat = 0x20 ∨ c.toNat = 0x09 ∨ c.toNat = 0x0A ∨ c.toNat = 0x0B ∨
    c.toNat = 0x0C ∨ c.toNat = 0x0D ∨ c.toNat = 0xA0 ∨ c.toNat = 0x1680 ∨
    (0x2000 ≤ c.toNat ∧ c.toNat ≤ 0x200A) ∨ c.toNat = 0x2028 ∨ c.toNat = 0x2029 ∨
    c.toNat = 0x202F ∨ c.toNat = 0x205F ∨ c.toNat = 0x3000 ∨ c.toNat = 0xFEFF)

/-- JavaScript line terminators, the characters `.` does not match. -/
def isLineTerm (c : Char) : Bool :=
  decide (c.toNat = 0x0A ∨ c.toNat = 0x0D ∨ c.toNat = 0x2028 ∨ c.toNat = 0x2029)

/-- Character matched by `.` in a JavaScript regex without the `s` flag. -/
def isDotChar (c : Char) : Bool :=
  !isLineTerm c

/-- JavaScript `\w` word characters (ASCII letters, digits, underscore). -/
def isWordChar (c : Char) : Bool :=
  decide ((0x61 ≤ c.toNat ∧ c.toNat ≤ 0x7A) ∨ (0x41 ≤ c.toNat ∧ c.toNat ≤ 0x5A) ∨
    (0x30 ≤ c.toNat ∧ c.toNat ≤ 0x39) ∨ c.toNat = 0x5F)

/-- ASCII decimal digit (`\d`). -/
def isDigitCh (c : Char) : Bool :=
  decide (0x30 ≤ c.toNat ∧ c.toNat ≤ 0x39)

/-- Removal of leading and trailing JavaScript whitespace. -/
def trimChars (l : List Char) : List Char :=
  ((l.dropWhile isJsWS).reverse.dropWhile isJsWS).reverse

/-- JavaScript `String.trim()`. -/
def jsTrim (s : String) : String :=
  ⟨trimChars s.data⟩

/-- JavaScript `String.toLowerCase()` on the modeled alphabet. -/
def jsToLowerCase (s : String) : String :=
  ⟨s.data.map toLowerChar⟩

/-- Consumption of a literal keyword from the front of a string; returns
the remainder on success. -/
def dropLit : List Char → List Char → Option (List Char)
  | [], s => some s
  | _ :: _, [] => none
  | k :: kt, c :: ct => if c = k then dropLit kt ct else none

/-- Containment test used for JavaScript `String.includes`: does the
needle occur as a contiguous run inside the haystack? -/
def containsRun (needle : List Char) : List Char → Bool
  | [] => needle.isEmpty
  | c :: t => needle.isPrefixOf (c :: t) || containsRun needle t

/-- Word-boundary test for one position: `\b needle \b` matches at the
head of `rest` given the character just before it (`none` at the very
start of the text).  A `\b` holds where word-character-ness changes. -/
def wbHere (pat rest : List Char) (prev : Option Char) : Bool :=
  match pat with
  | [] => true
  | p0 :: _ =>
      pat.isPrefixOf rest &&
      ((match prev with
        | none => false
        | some c => isWordChar c) != isWordChar p0) &&
      (match rest.drop pat.length with
       | [] => isWordChar (pat.getLastD p0)
       | a :: _ => isWordChar (pat.getLastD p0) != isWordChar a)

/-- Scan of the whole text for a `\b needle \b` match, carrying the
previous character. -/
def wbScan (pat : List Char) : Option Char → List Char → Bool
  | prev, [] => wbHere pat [] prev
  | prev, c :: t => wbHere pat (c :: t) prev || wbScan pat (some c) t

/-- Test of the RegExp `` `\b${escapeRegex(pat)}\b` `` against a text.
Case-insensitivity is obtained by the callers lowering both sides, and
`escapeRegex` makes the embedded pattern match literally, which is what
`wbHere` implements. -/
def testWB (pat txt : List Char) : Bool :=
  wbScan pat none txt

/-- Value of `parseInt` on a non-empty digit string. -/
def digitsToNat (l : List Char) : Nat :=
  l.foldl (fun a c => 10 * a + (c.toNat - 0x30)) 0

/-- Attempted match of `cap[ií]tulo\s*(\d+)` exactly at the head of the
(lower-cased) text. -/
def capAt (l : List Char) : Option Nat :=
  match l with
  | 'c' :: 'a' :: 'p' :: x :: 't' :: 'u' :: 'l' :: 'o' :: r =>
      if x = 'i' ∨ x = 'í' then
        let ds := (r.dropWhile isJsWS).takeWhile isDigitCh
        if ds.isEmpty then none else some (digitsToNat ds)
      else none
  | _ => none

/-- Search for the first match of `cap[ií]tulo\s*(\d+)`. -/
def capSearch : List Char → Option Nat
  | [] => none
  | c :: t =>
      match capAt (c :: t) with
      | some n => some n
      | none => capSearch t

/-- The chapter shortcut pattern `q.match(/cap[ií]tulo\s*(\d+)/i)`
followed by `parseInt` (preguntas.js lines 55–57, nlpProcessor.js
line 230). -/
def capRegexMatch (q : String) : Option Nat :=
  capSearch (jsToLowerCase q).data

/-- Characters stripped by `replace(/^[¿?]+|[¿?]+$/g, '')`. -/
def isSigno (c : Char) : Bool :=
  decide (c.toNat = 0xBF ∨ c.toNat = 0x3F)

/-- Removal of leading and trailing runs of question marks. -/
def stripSignos (l : List Char) : List Char :=
  ((l.dropWhile isSigno).reverse.dropWhile isSigno).reverse

/-- Characters stripped from the end of the captured term by
`replace(/[?\.!]+$/, '')`. -/
def isPunctTail (c : Char) : Bool :=
  decide (c.toNat = 0x3F ∨ c.toNat = 0x2E ∨ c.toNat = 0x21)

/-- Removal of a trailing run of `?`, `.`, `!`. -/
def stripTailPunct (l : List Char) : List Char :=
  (l.reverse.dropWhile isPunctTail).reverse

/-- Match of the tail `\s+(.+)$` of the existence templates against the
remainder `r`, with the backtracking JavaScript gives greedy `\s+`
against `(.+)$` (`.` does not cross line terminators). -/
def wsCapture (r : List Char) : Option (List Char) :=
  let w := r.takeWhile isJsWS
  let cap := r.dropWhile isJsWS
  if w.isEmpty then none
  else if !cap.isEmpty && cap.all isDotChar then some cap
  else if cap.isEmpty && decide (2 ≤ w.length) && isDotChar (w.getLastD ' ') then
    some [w.getLastD ' ']
  else none

/-- Match of a template `^kw\s+(.+)$`; returns the capture. -/
def tplCapture (kw : List Char) (s : List Char) : Option (List Char) :=
  match dropLit kw s with
  | none => none
  | some r => wsCapture r

/-- Match of a template `^existe(n)?<mid>\s+(.+)$` with the capture the
code uses (`m[1] || m[2]`): when the optional `n` participates in the
match, `m[1]` is the truthy string `"n"` and that is what is returned;
otherwise the `(.+)` capture. -/
def existeCapture (mid : String) (s : List Char) : Option (List Char) :=
  match tplCapture ("existen" ++ mid).data s with
  | some _ => some ['n']
  | none => tplCapture ("existe" ++ mid).data s

/-- Post-processing of a captured term
(`t.trim()`, strip `[?.!]+$`, `.trim()`, `limpiarTexto`). -/
def finishTerm (t : List Char) : String :=
  limpiarTexto ⟨trimChars (stripTailPunct (trimChars t))⟩

/-- The ordered template list of `detectarExistencia`
(nlpProcessor.js lines 127–135). -/
def existPatterns : List (List Char → Option (List Char)) :=
  [tplCapture "hubo alguna".data, tplCapture "hubo".data,
   existeCapture " alguna", existeCapture "",
   tplCapture "existió".data, tplCapture "hay alguna".data,
   tplCapture "hay".data]

/-- `detectarExistencia` from nlpProcessor.js lines 122–149: lower-case,
strip surrounding question marks, try the templates in order, and clean
the first capture.  (Every capture the templates can produce is a
non-empty string, so the JavaScript truthiness test on it always
passes.) -/
def detectarExistencia (textoOriginal : String) : Option String :=
  let txt := trimChars (jsToLowerCase textoOriginal).data
  let sinSignos := trimChars (stripSignos txt)
  match existPatterns.findSome? (fun f => f sinSignos) with
  | some t => some (finishTerm t)
  | none => none

/-- Modelled from the spec (§4.4), for comparison with the code: the same
ordered templates, but the returned term is always the `<X>` that the
template's `(.+)` group captured — also for the `existe(n)?` templates
when the optional `n` matched. -/
def existeCaptureSpec (mid : String) (s : List Char) : Option (List Char) :=
  match tplCapture ("existen" ++ mid).data s with
  | some t => some t
  | none => tplCapture ("existe" ++ mid).data s

/-- Modelled from the spec (§4.4): the template list with the spec's
reading of the capture. -/
def existPatternsSpec : List (List Char → Option (List Char)) :=
  [tplCapture "hubo alguna".data, tplCapture "hubo".data,
   existeCaptureSpec " alguna", existeCaptureSpec "",
   tplCapture "existió".data, tplCapture "hay alguna".data,
   tplCapture "hay".data]

/-- Modelled from the spec (§4.4): `detectExistenceTerm` as the spec
words it, returning the cleaned `<X>`. -/
def detectExistenceTermSpec (textoOriginal : String) : Option String :=
  let txt := trimChars (jsToLowerCase textoOriginal).data
  let sinSignos := trimChars (stripSignos txt)
  match existPatternsSpec.findSome? (fun f => f sinSignos) with
  | some t => some (finishTerm t)
  | none => none

/-- The object literal `verbosClave` exactly as written in
nlpProcessor.js lines 23–65, entry by entry — including the keys
`casar`, `perder` and `cambiar`, each of which is written twice. -/
def verbosClaveLiteral : List (String × List String) :=
  [("morir", ["morir", "murió", "falleció", "pereció", "expiró", "dejó de existir", "trascendió", "se murió"]),
   ("fundar", ["fundar", "fundó", "crear", "creó", "establecer", "estableció", "erigir", "construyó", "formó"]),
   ("nacer", ["nacer", "nació", "nacido", "nacimiento", "nacieron", "vino al mundo", "nace", "alumbramiento"]),
   ("casar", ["casarse", "matrimonio", "se casó", "unió", "contrajo nupcias", "boda", "desposó"]),
   ("desaparecer", ["desaparecer", "desapareció", "se desvaneció", "se perdió", "se esfumó"]),
   ("envejecer", ["envejecer", "envejeció", "se volvió viejo", "se hizo mayor", "envejece"]),
   ("amar", ["amar", "se enamoró", "amor", "amó", "adoró", "querer", "se quiso"]),
   ("partir", ["partir", "salió", "se fue", "abandonó", "marchó", "huyó", "emigró"]),
   ("regresar", ["regresar", "volvió", "retornó", "reapareció", "regresó", "volvieron"]),
   ("escribir", ["escribir", "escribió", "redactó", "documentó", "anotó", "registró"]),
   ("revelar", ["revelar", "contó", "confesó", "descubrió", "admitió", "explicó"]),
   ("asesinar", ["matar", "asesinar", "fue asesinado", "ejecutar", "ajustició", "eliminó"]),
   ("leer", ["leer", "leyó", "consultó", "revisó", "estudió"]),
   ("profetizar", ["profetizar", "profetizó", "predijo", "adivinó", "vaticinó"]),
   ("imponer", ["imponer", "impuso", "dominó", "trajo disciplina", "ordenó", "estableció normas"]),
   ("enriquecer", ["riqueza", "hacerse rico", "volverse rico", "obtener riqueza", "rico", "ser rico", "volvió rico", "hizo rico", "enriquecer", "enriquecerse", "enriqueció", "enriquecido"]),
   ("perder", ["perder", "perdió", "perdido", "pérdida", "se le fue", "desapareció", "se perdió"]),
   ("crecer", ["crecer", "creció", "crece", "crecido", "crecimiento", "crecieron", "expansión", "desarrollo"]),
   ("huir", ["huir", "huyó", "escapó", "fugó", "se escapó", "se fugó"]),
   ("construir", ["construir", "construyó", "edificó", "levantó", "edificaron"]),
   ("destruir", ["destruir", "destruyó", "arrasó", "derribó", "se vino abajo"]),
   ("cambiar", ["cambiar", "cambió", "transformó", "modificó", "mutó", "variar", "evolucionó"]),
   ("sufrir", ["sufrir", "sufrió", "padeció", "dolor", "penó", "afligió"]),
   ("ganar", ["ganar", "ganó", "obtuvo", "venció", "triunfó", "logró"]),
   ("perder", ["perder", "perdió", "derrota", "fracasó", "fue vencido", "cayó"]),
   ("aparecer", ["aparecer", "apareció", "surgió", "se presentó", "emergió"]),
   ("visitar", ["visitar", "visitó", "vino a ver", "llegó a ver", "se apareció"]),
   ("recordar", ["recordar", "recordó", "memoria", "rememoró", "evocó"]),
   ("olvidar", ["olvidar", "olvidó", "se le olvidó", "lo perdió de mente", "omitió"]),
   ("confesar", ["confesar", "confesó", "admitió", "reveló", "declaró"]),
   ("ver", ["ver", "vio", "observó", "miró", "contempló", "presenció"]),
   ("oír", ["oír", "oyó", "escuchó", "percibió", "atendió"]),
   ("poseer", ["poseer", "tuvo", "tenía", "era dueño de", "obtuvo", "poseyó"]),
   ("entregar", ["entregar", "entregó", "cedió", "dio", "regaló"]),
   ("recibir", ["recibir", "recibió", "obtuvo", "aceptó", "fue dado"]),
   ("haber", ["haber", "hubo", "hay", "existió", "existía", "existieron", "ocurrió", "aconteció"]),
   ("tener", ["tener", "tenía", "tuvo", "han tenido", "hubo", "poseía", "contaba con", "mantuvo", "disponía de"]),
   ("comerciar", ["comerciar", "comerció", "vendió", "intercambió", "negoció", "transó", "truequeó", "traficó", "hizo negocios"]),
   ("casar", ["casarse", "se casó", "contrajo matrimonio", "contrajo nupcias", "matrimonio", "boda", "se unió", "se desposó", "desposó", "celebró su boda"]),
   ("existir", ["existir", "existía", "existió", "hubo", "hay", "se encontraba", "se hallaba", "estaba presente", "permanecía", "subsistía"]),
   ("cambiar", ["cambiar", "cambio", "cambió", "modificar", "transformar", "modificó", "transformó", "fue modificado", "variar", "variación", "se transformó"])]

/-- Insertion of one key into a growing JavaScript object: a repeated key
keeps its original position but takes the new value. -/
def upsert : List (String × List String) → String → List String → List (String × List String)
  | [], k, v => [(k, v)]
  | (k', v') :: t, k, v => if k' = k then (k', v) :: t else (k', v') :: upsert t k v

/-- Evaluation of an object literal: entries processed left to right,
duplicate keys overwritten in place.  `Object.entries` then yields keys
in first-occurrence order with the last assigned value. -/
def jsObjectEntries (l : List (String × List String)) : List (String × List String) :=
  l.foldl (fun acc kv => upsert acc kv.1 kv.2) []

/-- The dictionary the running code actually sees: the evaluated object
literal. -/
def verbosClave : List (String × List String) :=
  jsObjectEntries verbosClaveLiteral

/-- The inner loop of step 7 of `analizarPregunta`: surface forms of one
intent are tried in order and the loop breaks at the first form whose
whole-word pattern matches the folded question. -/
def scanFormas (txt : List Char) : List String → Bool
  | [] => false
  | f :: rest => if testWB (limpiarTexto f).data txt then true else scanFormas txt rest

/-- Step 7 of `analizarPregunta` (nlpProcessor.js lines 261–276): for
every intent, if some surface form matches the folded raw question as a
whole word, one whole-word pattern per surface form of that intent is
appended (a pattern is represented by its folded body). -/
def detectarVerbos (pregunta : String) : List String :=
  let textoRawNorm := (limpiarTexto pregunta).data
  verbosClave.flatMap (fun kv =>
    if scanFormas textoRawNorm kv.2 then kv.2.map (fun f => limpiarTexto f) else [])

theorem scanFormas_eq_any (txt : List Char) (fs : List String) :
    scanFormas txt fs = fs.any (fun f => testWB (limpiarTexto f).data txt) := by
  induction fs with
  | nil => rfl
  | cons f rest ih =>
      rw [scanFormas, List.any_cons]
      by_cases h : testWB (limpiarTexto f).data txt = true
      · rw [if_pos h, h, Bool.true_or]
      · rw [if_neg h, ih]
        cases hr : testWB (limpiarTexto f).data txt
        · rw [Bool.false_or]
        · exact absurd hr h

theorem mem_detectarVerbos (q : String) (x : String) (hx : x ∈ detectarVerbos q) :
    ∃ kv ∈ verbosClave, x ∈ kv.2.map (fun f => limpiarTexto f) := by
  rw [detectarVerbos] at hx
  obtain ⟨kv, hkv, hxin⟩ := List.mem_flatMap.mp hx
  refine ⟨kv, hkv, ?_⟩
  by_cases h : scanFormas (limpiarTexto q).data kv.2 = true
  · rwa [if_pos h] at hxin
  · rw [if_neg h] at hxin
    exact absurd hxin (List.not_mem_nil x)

/-- Witness for `limpiarTexto_idempotent` at the concrete string
"¿Cuándo murió Úrsula?". -/
theorem limpiarTexto_idempotent_witness :
    limpiarTexto (limpiarTexto "¿Cuándo murió Úrsula?") =
      limpiarTexto "¿Cuándo murió Úrsula?" :=
  limpiarTexto_idempotent "¿Cuándo murió Úrsula?"

/-- C3: for every question, the verb matcher is equivalent to: an intent
contributes exactly when some of its surface forms matches the folded raw
question as a whole word, and then it contributes one pattern per surface
form of that intent (so the break after the first hit inside an intent
changes nothing observable, and later intents are still scanned); and a
question containing "murió" produces a non-empty pattern set containing
the patterns for "falleció" and "pereció". -/
theorem detectarVerbos_characterization :
    (∀ q : String, detectarVerbos q =
      verbosClave.flatMap (fun kv =>
        if kv.2.any (fun f => testWB (limpiarTexto f).data (limpiarTexto q).data) then
          kv.2.map (fun f => limpiarTexto f) else [])) ∧
    "fallecio" ∈ detectarVerbos "¿Cuándo murió Úrsula?" ∧
    "perecio" ∈ detectarVerbos "¿Cuándo murió Úrsula?" ∧
    detectarVerbos "¿Cuándo murió Úrsula?" ≠ [] := by
  refine ⟨fun q => ?_, by decide, by decide, by decide⟩
  simp only [detectarVerbos, scanFormas_eq_any]

/-- Witness for `detectarVerbos_characterization`: its pointwise
characterization applied at the question "¿Cuándo murió Úrsula?". -/
theorem detectarVerbos_characterization_witness :
    detectarVerbos "¿Cuándo murió Úrsula?" =
      verbosClave.flatMap (fun kv =>
        if kv.2.any (fun f =>
            testWB (limpiarTexto f).data (limpiarTexto "¿Cuándo murió Úrsula?").data) then
          kv.2.map (fun f => limpiarTexto f) else []) :=
  detectarVerbos_characterization.1 "¿Cuándo murió Úrsula?"

/-- C10: the duplicated keys `casar`, `perder`, `cambiar` of the
`verbosClave` object literal are resolved by JavaScript to their later
surface-form lists; every pattern the matcher emits comes from an
effective (post-overwrite) list; the forms that occur only in the
overwritten lists ("perdido", "pérdida", "mutó", "unió") are never
emitted as patterns; and a question consisting of such a form alone
triggers nothing at all. -/
theorem verbosClave_duplicate_keys :
    verbosClave.lookup "casar" =
      some ["casarse", "se casó", "contrajo matrimonio", "contrajo nupcias", "matrimonio",
        "boda", "se unió", "se desposó", "desposó", "celebró su boda"] ∧
    verbosClave.lookup "perder" =
      some ["perder", "perdió", "derrota", "fracasó", "fue vencido", "cayó"] ∧
    verbosClave.lookup "cambiar" =
      some ["cambiar", "cambio", "cambió", "modificar", "transformar", "modificó",
        "transformó", "fue modificado", "variar", "variación", "se transformó"] ∧
    ("casar", ["casarse", "matrimonio", "se casó", "unió", "contrajo nupcias", "boda",
      "desposó"]) ∈ verbosClaveLiteral ∧
    ("perder", ["perder", "perdió", "perdido", "pérdida", "se le fue", "desapareció",
      "se perdió"]) ∈ verbosClaveLiteral ∧
    ("cambiar", ["cambiar", "cambió", "transformó", "modificó", "mutó", "variar",
      "evolucionó"]) ∈ verbosClaveLiteral ∧
    (∀ q x, x ∈ detectarVerbos q → ∃ kv ∈ verbosClave, x ∈ kv.2.map (fun f => limpiarTexto f)) ∧
    (∀ q : String, "perdido" ∉ detectarVerbos q) ∧
    (∀ q : String, "perdida" ∉ detectarVerbos q) ∧
    (∀ q : String, "muto" ∉ detectarVerbos q) ∧
    (∀ q : String, "unio" ∉ detectarVerbos q) ∧
    detectarVerbos "perdido" = [] ∧ detectarVerbos "pérdida" = [] ∧
    detectarVerbos "mutó" = [] ∧ detectarVerbos "unió" = [] := by
  have horphan : ∀ kv ∈ verbosClave,
      "perdido" ∉ kv.2.map (fun f => limpiarTexto f) ∧
      "perdida" ∉ kv.2.map (fun f => limpiarTexto f) ∧
      "muto" ∉ kv.2.map (fun f => limpiarTexto f) ∧
      "unio" ∉ kv.2.map (fun f => limpiarTexto f) := by decide
  refine ⟨by decide, by decide, by decide, by decide, by decide, by decide,
    mem_detectarVerbos, ?_, ?_, ?_, ?_, by decide, by decide, by decide, by decide⟩
  · intro q hq
    obtain ⟨kv, hkv, hmem⟩ := mem_detectarVerbos q _ hq
    exact (horphan kv hkv).1 hmem
  · intro q hq
    obtain ⟨kv, hkv, hmem⟩ := mem_detectarVerbos q _ hq
    exact (horphan kv hkv).2.1 hmem
  · intro q hq
    obtain ⟨kv, hkv, hmem⟩ := mem_detectarVerbos q _ hq
    exact (horphan kv hkv).2.2.1 hmem
  · intro q hq
    obtain ⟨kv, hkv, hmem⟩ := mem_detectarVerbos q _ hq
    exact (horphan kv hkv).2.2.2 hmem

/-- Witness for the hypotheses of `verbosClave_duplicate_keys`: its
emitted-pattern conjunct applied at the question "¿Cuándo murió Úrsula?"
and the pattern "fallecio", and its never-emitted conjunct applied at the
question "perdido". -/
theorem verbosClave_duplicate_keys_witness :
    (∃ kv ∈ verbosClave, "fallecio" ∈ kv.2.map (fun f => limpiarTexto f)) ∧
    "perdido" ∉ detectarVerbos "perdido" :=
  ⟨verbosClave_duplicate_keys.2.2.2.2.2.2.1 "¿Cuándo murió Úrsula?" "fallecio" (by decide),
   verbosClave_duplicate_keys.2.2.2.2.2.2.2.1 "perdido"⟩

/-- An event document (models/model_eventos.js).  References are ids into
the other collections. -/
structure Evento where
  id : Nat
  nombre : String
  descripcion : Option String
  personajes_involucrados : List Nat
  lugar_relacionado : Option Nat
  generacion_relacionada : Option Nat
deriving DecidableEq, Repr

/-- A chapter document (models/model_capitulos.js). -/
structure Capitulo where
  numero : Nat
  eventos : List Nat
deriving DecidableEq, Repr

/-- A character document (models/model_personajes.js); only the name is
used by the pipeline. -/
structure Personaje where
  id : Nat
  nombre : String
deriving DecidableEq, Repr

/-- A place document (schema referenced as models/model_lugares.js). -/
structure Lugar where
  id : Nat
  nombre : String
deriving DecidableEq, Repr

/-- An object document (schema referenced as models/model_objetos.js);
the pipeline reads its name and its optional event reference. -/
structure Objeto where
  id : Nat
  nombre : String
  evento_relacionado : Option Nat
deriving DecidableEq, Repr

/-- State machine for JavaScript `split(/\s+/)`: `some w` holds the
reversed characters of the word being built, `none` means the scanner is
inside a separator run.  Maximal whitespace runs separate pieces; a
leading or trailing run contributes an empty piece, exactly as in
JavaScript. -/
def splitSt (cur : Option (List Char)) : List Char → List (List Char)
  | [] =>
      match cur with
      | some w => [w.reverse]
      | none => [[]]
  | c :: t =>
      if isJsWS c then
        match cur with
        | some w => w.reverse :: splitSt none t
        | none => splitSt none t
      else
        match cur with
        | some w => splitSt (some (c :: w)) t
        | none => splitSt (some [c]) t

/-- JavaScript `s.split(/\s+/)` on the character list of `s`. -/
def jsSplitWS (l : List Char) : List (List Char) :=
  splitSt (some []) l

/-- `matchFlexible` (nlpProcessor.js lines 82–87): full containment of
the folded entity, or containment of any whitespace-delimited token of
it.  Empty entity or text is falsy and never matches. -/
def matchFlexible (entidadNormal textoNormal : String) : Bool :=
  if entidadNormal.data.isEmpty || textoNormal.data.isEmpty then false
  else if containsRun entidadNormal.data textoNormal.data then true
  else (jsSplitWS entidadNormal.data).any (fun parte => containsRun parte textoNormal.data)

/-- Attempted match of `\s*\(.*?\)\s*` at the head of the list; returns
the remainder after the match.  The lazy `(.*?)` stops at the first `)`
and cannot cross a line terminator. -/
def parenAt (l : List Char) : Option (List Char) :=
  match l.dropWhile isJsWS with
  | '(' :: inner =>
      let content := inner.takeWhile (fun d => !(d = ')'))
      if content.all isDotChar then
        match inner.dropWhile (fun d => !(d = ')')) with
        | ')' :: after => some (after.dropWhile isJsWS)
        | _ => none
      else none
  | _ => none

/-- Fuel-indexed scan for the global replace
`replace(/\s*\(.*?\)\s*/g, '')`; the fuel starts at the list length,
which bounds the number of steps since every step consumes at least one
character. -/
def removeParensGo : Nat → List Char → List Char
  | 0, l => l
  | _ + 1, [] => []
  | fuel + 1, c :: t =>
      match parenAt (c :: t) with
      | some rem => removeParensGo fuel rem
      | none => c :: removeParensGo fuel t

/-- `nombreCompleto.replace(/\s*\(.*?\)\s*/g, '')`. -/
def removeParens (l : List Char) : List Char :=
  removeParensGo l.length l

/-- Search for the first match of `/\((.*?)\)/`; returns the raw capture
(the parenthetical content). -/
def aliasScan : List Char → Option (List Char)
  | [] => none
  | c :: t =>
      if c = '(' then
        let content := t.takeWhile (fun d => !(d = ')'))
        if content.all isDotChar && !(t.dropWhile (fun d => !(d = ')'))).isEmpty then
          some content
        else aliasScan t
      else aliasScan t

/-- `extraerAlias` (nlpProcessor.js lines 190–195): the folded,
paren-stripped, trimmed name together with the folded content of the
first parenthetical, if any. -/
def extraerAlias (nombreCompleto : String) : String × Option String :=
  (jsTrim (limpiarTexto ⟨removeParens nombreCompleto.data⟩),
   (aliasScan nombreCompleto.data).map (fun a => limpiarTexto ⟨a⟩))

/-- Step 4 of `analizarPregunta` (nlpProcessor.js lines 242–247):
characters whose paren-stripped folded name — or folded alias — matches
flexibly; the original stored names are returned trimmed. -/
def detectarPersonajes (personajesBD : List Personaje) (textoNorm : String) : List String :=
  (personajesBD.filter (fun p =>
    matchFlexible (extraerAlias p.nombre).1 textoNorm ||
      (match (extraerAlias p.nombre).2 with
       | some al => matchFlexible al textoNorm
       | none => false))).map (fun p => jsTrim p.nombre)

/-- Step 5 of `analizarPregunta` (nlpProcessor.js lines 250–253): places
whose folded name matches flexibly; the original names are returned as
stored. -/
def detectarLugares (lugaresBD : List Lugar) (textoNorm : String) : List String :=
  (lugaresBD.filter (fun l => matchFlexible (limpiarTexto l.nombre) textoNorm)).map
    (fun l => l.nombre)

/-- Step 6 of `analizarPregunta` (nlpProcessor.js lines 256–259): same
for objects. -/
def detectarObjetos (objetosBD : List Objeto) (textoNorm : String) : List String :=
  (objetosBD.filter (fun o => matchFlexible (limpiarTexto o.nombre) textoNorm)).map
    (fun o => o.nombre)

/-- Modelled from the spec (§4.3 and claim C6): an entity matches iff its
folded stored name appears as a substring of the normalized question, or
its folded alias does, or any whitespace-delimited token of the folded
stored name does. -/
def entityMatchesSpec (storedName textoNorm : String) : Bool :=
  containsRun (limpiarTexto storedName).data textoNorm.data ||
  (match aliasScan storedName.data with
   | some a => containsRun (limpiarTexto ⟨a⟩).data textoNorm.data
   | none => false) ||
  (jsSplitWS (limpiarTexto storedName).data).any (fun tok => containsRun tok textoNorm.data)

/-- `normalizar` (nlpProcessor.js lines 106–113): the external
`compromise` normalization (a third-party library, not part of this
repository) followed by `limpiarTexto`.  The library step is modeled as
the identity; the observable canonicalization of the pipeline is the
fold. -/
def normalizar (texto : String) : String :=
  limpiarTexto texto

/-- The comparison string of a fuzzy candidate:
`limpiarTexto(`${e.nombre} ${e.descripcion || ''}`)`. -/
def candidatoTexto (e : Evento) : String :=
  limpiarTexto (e.nombre ++ " " ++ e.descripcion.getD "")

/-- `calcularScore` (nlpProcessor.js lines 168–173): set of
whitespace-delimited words of each side, and the intersection size over
`max(|words a|, 1)`.  (`List.dedup` collapses duplicates; only the set of
words matters for the count, as with the JavaScript `Set`.) -/
def calcularScore (a b : List Char) : ℚ :=
  let palabrasA := (jsSplitWS a).dedup
  let palabrasB := jsSplitWS b
  let interseccion := palabrasA.filter (fun p => palabrasB.contains p)
  (interseccion.length : ℚ) / (max palabrasA.length 1 : ℚ)

/-- First pair of maximal score: stable descending sort followed by
`[0]`, as in the source, keeps the earliest candidate whose score is
maximal, which is what this accumulator computes. -/
def pickTopAux (best : Evento × ℚ) : List (Evento × ℚ) → Evento × ℚ
  | [] => best
  | x :: xs => if best.2 < x.2 then pickTopAux x xs else pickTopAux best xs

/-- Core of `buscarEventoSimilar` (nlpProcessor.js lines 166–182) after
the events list has been read: score every event against the normalized
question, take the top, and keep it only above the 0.2 threshold. -/
def buscarEventoSimilarCore (texto : String) (eventos : List Evento) : Option Evento :=
  match eventos.map (fun e => (e, calcularScore texto.data (candidatoTexto e).data)) with
  | [] => none
  | c :: cs =>
      if (1 : ℚ)/5 < (pickTopAux c cs).2 then some (pickTopAux c cs).1 else none

/-- `buscarEventoSimilar` (nlpProcessor.js lines 156–183): the events
read may fail, in which case the error is caught, logged and turned into
`null`. -/
def buscarEventoSimilarE (eventosRead : Except Unit (List Evento)) (pregunta : String) :
    Option Evento :=
  match eventosRead with
  | Except.error _ => none
  | Except.ok eventos => buscarEventoSimilarCore (normalizar pregunta) eventos

/-- C6 counterexample: the claim's condition — folded name substring, or
folded alias substring, or a token of the folded name as substring — is
false for the stored character "José (el Grande)" against the question
"un pueblo grande", yet the matcher includes the character, because it
also token-splits the *alias* ("grande" is a token of "el grande").
Moreover the matcher returns place names untrimmed: the stored place
" Macondo " is returned with its padding, not trimmed. -/
theorem entity_matcher_counterexample :
    detectarPersonajes [⟨1, "José (el Grande)"⟩] "un pueblo grande" = ["José (el Grande)"] ∧
    entityMatchesSpec "José (el Grande)" "un pueblo grande" = false ∧
    detectarLugares [⟨1, " Macondo "⟩] "en macondo" = [" Macondo "] ∧
    (" Macondo " : String) ≠ "Macondo" := by
  refine ⟨by decide, by decide, by decide, by decide⟩

/-- C6 as amended: an entity is included iff `matchFlexible` accepts its
folded, paren-stripped name or (for characters) its folded alias — where
`matchFlexible` itself accepts on full containment or containment of any
single whitespace-delimited token, for the alias just as for the name;
character names are returned trimmed, while place and object names are
returned exactly as stored. -/
theorem entity_matcher_amended :
    (∀ (bd : List Personaje) (textoNorm x : String),
      x ∈ detectarPersonajes bd textoNorm ↔
        ∃ p ∈ bd, x = jsTrim p.nombre ∧
          (matchFlexible (extraerAlias p.nombre).1 textoNorm = true ∨
           ∃ a, (extraerAlias p.nombre).2 = some a ∧ matchFlexible a textoNorm = true)) ∧
    (∀ (bd : List Lugar) (textoNorm x : String),
      x ∈ detectarLugares bd textoNorm ↔
        ∃ l ∈ bd, x = l.nombre ∧ matchFlexible (limpiarTexto l.nombre) textoNorm = true) ∧
    (∀ (bd : List Objeto) (textoNorm x : String),
      x ∈ detectarObjetos bd textoNorm ↔
        ∃ o ∈ bd, x = o.nombre ∧ matchFlexible (limpiarTexto o.nombre) textoNorm = true) ∧
    (∀ ent txt : String, matchFlexible ent txt = true ↔
      (ent.data ≠ [] ∧ txt.data ≠ [] ∧
        (containsRun ent.data txt.data = true ∨
         ∃ parte ∈ jsSplitWS ent.data, containsRun parte txt.data = true))) := by
  refine ⟨?_, ?_, ?_, ?_⟩
  · intro bd textoNorm x
    constructor
    · intro hx
      rw [detectarPersonajes] at hx
      obtain ⟨p, hp, hpx⟩ := List.mem_map.mp hx
      obtain ⟨hpbd, hcond⟩ := List.mem_filter.mp hp
      refine ⟨p, hpbd, hpx.symm, ?_⟩
      rw [Bool.or_eq_true] at hcond
      rcases hcond with h | h
      · exact Or.inl h
      · right
        cases hal : (extraerAlias p.nombre).2 with
        | none => rw [hal] at h; exact absurd h (by simp)
        | some a => rw [hal] at h; exact ⟨a, rfl, h⟩
    · rintro ⟨p, hpbd, rfl, hcond⟩
      rw [detectarPersonajes]
      refine List.mem_map.mpr ⟨p, List.mem_filter.mpr ⟨hpbd, ?_⟩, rfl⟩
      rw [Bool.or_eq_true]
      rcases hcond with h | ⟨a, ha, hm⟩
      · exact Or.inl h
      · right; rw [ha]; exact hm
  · intro bd textoNorm x
    constructor
    · intro hx
      rw [detectarLugares] at hx
      obtain ⟨l, hl, hlx⟩ := List.mem_map.mp hx
      obtain ⟨hlbd, hcond⟩ := List.mem_filter.mp hl
      exact ⟨l, hlbd, hlx.symm, hcond⟩
    · rintro ⟨l, hlbd, rfl, hcond⟩
      rw [detectarLugares]
      exact List.mem_map.mpr ⟨l, List.mem_filter.mpr ⟨hlbd, hcond⟩, rfl⟩
  · intro bd textoNorm x
    constructor
    · intro hx
      rw [detectarObjetos] at hx
      obtain ⟨o, ho, hox⟩ := List.mem_map.mp hx
      obtain ⟨hobd, hcond⟩ := List.mem_filter.mp ho
      exact ⟨o, hobd, hox.symm, hcond⟩
    · rintro ⟨o, hobd, rfl, hcond⟩
      rw [detectarObjetos]
      exact List.mem_map.mpr ⟨o, List.mem_filter.mpr ⟨hobd, hcond⟩, rfl⟩
  · intro ent txt
    rw [matchFlexible]
    by_cases h1 : (ent.data.isEmpty || txt.data.isEmpty) = true
    · rw [if_pos h1]
      simp only [Bool.or_eq_true, List.isEmpty_iff] at h1
      constructor
      · intro h; exact absurd h (by simp)
      · rintro ⟨he, ht, _⟩
        rcases h1 with h1 | h1
        · exact absurd h1 he
        · exact absurd h1 ht
    · rw [if_neg h1]
      simp only [Bool.or_eq_true, List.isEmpty_iff, not_or] at h1
      by_cases h2 : containsRun ent.data txt.data = true
      · rw [if_pos h2]
        exact ⟨fun _ => ⟨h1.1, h1.2, Or.inl h2⟩, fun _ => rfl⟩
      · rw [if_neg h2]
        constructor
        · intro h
          exact ⟨h1.1, h1.2, Or.inr (List.any_eq_true.mp h)⟩
        · rintro ⟨_, _, h | h⟩
          · exact absurd h h2
          · exact List.any_eq_true.mpr h

theorem getLastD_cons_eq (c : Char) (t : List Char) (d : Char) :
    (c :: t).getLastD d = t.getLastD c := by
  cases t <;> simp [List.getLastD]

theorem splitSt_nil_some (w : List Char) : splitSt (some w) [] = [w.reverse] := rfl

theorem splitSt_cons_ws_some (w : List Char) (c : Char) (t : List Char)
    (h : isJsWS c = true) : splitSt (some w) (c :: t) = w.reverse :: splitSt none t := by
  simp [splitSt, h]

theorem splitSt_cons_ws_none (c : Char) (t : List Char) (h : isJsWS c = true) :
    splitSt none (c :: t) = splitSt none t := by
  simp [splitSt, h]

theorem splitSt_cons_nws_some (w : List Char) (c : Char) (t : List Char)
    (h : isJsWS c = false) : splitSt (some w) (c :: t) = splitSt (some (c :: w)) t := by
  simp [splitSt, h]

theorem splitSt_cons_nws_none (c : Char) (t : List Char) (h : isJsWS c = false) :
    splitSt none (c :: t) = splitSt (some [c]) t := by
  simp [splitSt, h]

theorem splitSt_ne_nil (cur : Option (List Char)) (l : List Char) : splitSt cur l ≠ [] := by
  induction l generalizing cur with
  | nil => cases cur <;> simp [splitSt]
  | cons c t ih =>
      cases hc : isJsWS c with
      | true =>
          cases cur with
          | some w => rw [splitSt_cons_ws_some w c t hc]; exact List.cons_ne_nil _ _
          | none => rw [splitSt_cons_ws_none c t hc]; exact ih none
      | false =>
          cases cur with
          | some w => rw [splitSt_cons_nws_some w c t hc]; exact ih _
          | none => rw [splitSt_cons_nws_none c t hc]; exact ih _

theorem splitSt_append_sub (l : List Char) :
    ∀ (cur : Option (List Char)) (v x : List Char),
      ((l ≠ [] ∧ isJsWS (l.getLastD 'a') = false) ∨ (l = [] ∧ cur ≠ none)) →
      x ∈ splitSt cur l → x ∈ splitSt cur (l ++ ' ' :: v) := by
  induction l with
  | nil =>
      intro cur v x h hx
      rcases h with ⟨hne, _⟩ | ⟨_, hcur⟩
      · exact absurd rfl hne
      · cases cur with
        | none => exact absurd rfl hcur
        | some w =>
            rw [splitSt_nil_some, List.mem_singleton] at hx
            subst hx
            rw [List.nil_append, splitSt_cons_ws_some w ' ' v (by decide)]
            exact List.mem_cons_self _ _
  | cons c t ih =>
      intro cur v x h hx
      have hlast : t ≠ [] → isJsWS (t.getLastD 'a') = false := by
        intro htne
        rcases h with ⟨_, hl⟩ | ⟨habs, _⟩
        · rw [getLastD_cons_eq] at hl
          rwa [show t.getLastD c = t.getLastD 'a' from by
            cases t with
            | nil => exact absurd rfl htne
            | cons d t' => rw [getLastD_cons_eq, getLastD_cons_eq]] at hl
        · exact absurd habs (List.cons_ne_nil c t)
      cases hws : isJsWS c with
      | true =>
          have htne : t ≠ [] := by
            intro hte
            rcases h with ⟨_, hl⟩ | ⟨habs, _⟩
            · subst hte
              rw [show ([c] : List Char).getLastD 'a' = c from by
                rw [getLastD_cons_eq]; rfl] at hl
              rw [hws] at hl
              simp at hl
            · exact absurd habs (List.cons_ne_nil c t)
          cases cur with
          | some w =>
              rw [splitSt_cons_ws_some w c t hws] at hx
              rw [List.cons_append, splitSt_cons_ws_some w c (t ++ ' ' :: v) hws]
              rcases List.mem_cons.mp hx with hx | hx
              · exact List.mem_cons.mpr (Or.inl hx)
              · exact List.mem_cons.mpr
                  (Or.inr (ih none v x (Or.inl ⟨htne, hlast htne⟩) hx))
          | none =>
              rw [splitSt_cons_ws_none c t hws] at hx
              rw [List.cons_append, splitSt_cons_ws_none c (t ++ ' ' :: v) hws]
              exact ih none v x (Or.inl ⟨htne, hlast htne⟩) hx
      | false =>
          have hnext : ∀ w' : List Char,
              (t ≠ [] ∧ isJsWS (t.getLastD 'a') = false) ∨ (t = [] ∧ some w' ≠ none) := by
            intro w'
            cases t with
            | nil => exact Or.inr ⟨rfl, by simp⟩
            | cons d t' =>
                exact Or.inl ⟨List.cons_ne_nil d t', hlast (List.cons_ne_nil d t')⟩
          cases cur with
          | some w =>
              rw [splitSt_cons_nws_some w c t hws] at hx
              rw [List.cons_append, splitSt_cons_nws_some w c (t ++ ' ' :: v) hws]
              exact ih (some (c :: w)) v x (hnext (c :: w)) hx
          | none =>
              rw [splitSt_cons_nws_none c t hws] at hx
              rw [List.cons_append, splitSt_cons_nws_none c (t ++ ' ' :: v) hws]
              exact ih (some [c]) v x (hnext [c]) hx

theorem cleanChars_append (x y : List Char) :
    cleanChars (x ++ y) = cleanChars x ++ cleanChars y := by
  simp [cleanChars, List.map_append, List.flatMap_append, List.filter_append]

theorem candidato_data (e : Evento) :
    (candidatoTexto e).data =
      (limpiarTexto e.nombre).data ++ ' ' :: (limpiarTexto (e.descripcion.getD "")).data := by
  show cleanChars ((e.nombre ++ " " ++ e.descripcion.getD "").data) = _
  rw [String.data_append, String.data_append]
  rw [show (" " : String).data = [' '] from rfl]
  rw [cleanChars_append, cleanChars_append]
  rw [show cleanChars [' '] = [' '] from by decide]
  rw [List.append_assoc]
  rfl

theorem candidato_superset (e : Evento)
    (h : isJsWS ((limpiarTexto e.nombre).data.getLastD 'a') = false) :
    ∀ x ∈ jsSplitWS (limpiarTexto e.nombre).data, x ∈ jsSplitWS (candidatoTexto e).data := by
  intro x hx
  rw [jsSplitWS] at hx ⊢
  rw [candidato_data]
  refine splitSt_append_sub _ (some []) _ x ?_ hx
  cases hn : (limpiarTexto e.nombre).data with
  | nil => exact Or.inr ⟨rfl, by simp⟩
  | cons d t' => exact Or.inl ⟨List.cons_ne_nil d t', by rw [← hn]; exact h⟩

theorem subset_score_one (a b : List Char)
    (hsub : ∀ x ∈ jsSplitWS a, x ∈ jsSplitWS b) : calcularScore a b = 1 := by
  simp only [calcularScore]
  have hne : (jsSplitWS a).dedup ≠ [] := by
    intro hd
    rw [List.dedup_eq_nil] at hd
    exact splitSt_ne_nil (some []) a hd
  have hfil : ((jsSplitWS a).dedup).filter (fun p => (jsSplitWS b).contains p) =
      (jsSplitWS a).dedup := by
    apply List.filter_eq_self.mpr
    intro p hp
    exact List.elem_eq_true_of_mem (hsub p (List.mem_dedup.mp hp))
  rw [hfil]
  have hlen : 1 ≤ (jsSplitWS a).dedup.length := List.length_pos.mpr hne
  have hlenQ : (1 : ℚ) ≤ ((jsSplitWS a).dedup.length : ℚ) := by exact_mod_cast hlen
  rw [max_eq_left hlenQ]
  apply div_self
  have : (0 : ℚ) < ((jsSplitWS a).dedup.length : ℚ) := lt_of_lt_of_le one_pos hlenQ
  exact ne_of_gt this

theorem score_le_one (a b : List Char) : calcularScore a b ≤ 1 := by
  simp only [calcularScore]
  have hle : (((jsSplitWS a).dedup.filter (fun p => (jsSplitWS b).contains p)).length : ℚ) ≤
      max ((jsSplitWS a).dedup.length : ℚ) 1 := by
    refine le_trans ?_ (le_max_left _ _)
    exact_mod_cast List.length_filter_le _ _
  have hpos : (0 : ℚ) < max ((jsSplitWS a).dedup.length : ℚ) 1 :=
    lt_of_lt_of_le one_pos (le_max_right _ _)
  rw [div_le_one hpos]
  exact hle

theorem pickTopAux_mem (best : Evento × ℚ) (l : List (Evento × ℚ)) :
    pickTopAux best l ∈ best :: l := by
  induction l generalizing best with
  | nil => simp [pickTopAux]
  | cons x xs ih =>
      rw [pickTopAux]
      by_cases h : best.2 < x.2
      · rw [if_pos h]
        exact List.mem_cons_of_mem best (ih x)
      · rw [if_neg h]
        rcases List.mem_cons.mp (ih best) with h2 | h2
        · rw [h2]; exact List.mem_cons_self _ _
        · exact List.mem_cons_of_mem best (List.mem_cons_of_mem x h2)

theorem pickTopAux_le (best : Evento × ℚ) (l : List (Evento × ℚ)) :
    ∀ y ∈ best :: l, y.2 ≤ (pickTopAux best l).2 := by
  induction l generalizing best with
  | nil =>
      intro y hy
      rw [List.mem_singleton] at hy
      subst hy
      exact le_refl _
  | cons x xs ih =>
      intro y hy
      rw [pickTopAux]
      by_cases h : best.2 < x.2
      · rw [if_pos h]
        rcases List.mem_cons.mp hy with hyb | hy2
        · rw [hyb]
          exact le_trans (le_of_lt h) (ih x x (List.mem_cons_self _ _))
        · exact ih x y hy2
      · rw [if_neg h]
        rcases List.mem_cons.mp hy with hyb | hy2
        · rw [hyb]
          exact ih best best (List.mem_cons_self _ _)
        · rcases List.mem_cons.mp hy2 with hyx | hy3
          · rw [hyx]
            exact le_trans (le_of_not_lt h) (ih best best (List.mem_cons_self _ _))
          · exact ih best y (List.mem_cons_of_mem best hy3)

/-- Witness for `entity_matcher_amended`: its `matchFlexible`
characterization applied at the alias "el grande" and the question
"un pueblo grande". -/
theorem entity_matcher_amended_witness :
    matchFlexible "el grande" "un pueblo grande" = true ↔
      (("el grande" : String).data ≠ [] ∧ ("un pueblo grande" : String).data ≠ [] ∧
        (containsRun ("el grande" : String).data ("un pueblo grande" : String).data = true ∨
         ∃ parte ∈ jsSplitWS ("el grande" : String).data,
           containsRun parte ("un pueblo grande" : String).data = true)) :=
  entity_matcher_amended.2.2.2 "el grande" "un pueblo grande"

/-- C5 counterexample: the claim promises score 1.0 whenever the
question is identical to an event's name, with no side condition.  For
the event named "La boda " (trailing space) with description "x", the
question identical to that name folds to "la boda ", whose JS
`split(/\s+/)` tokens include a final empty token that the candidate
string (name + " " + description) lacks: the score is 2/3, not 1.0 (the
event is still selected, since 2/3 exceeds the 0.2 threshold). -/
theorem fuzzy_ranker_counterexample :
    calcularScore (normalizar "La boda ").data
      (candidatoTexto ⟨1, "La boda ", some "x", [], none, none⟩).data = 2/3 ∧
    (2/3 : ℚ) ≠ 1 ∧
    buscarEventoSimilarCore (normalizar "La boda ")
      [⟨1, "La boda ", some "x", [], none, none⟩] =
      some ⟨1, "La boda ", some "x", [], none, none⟩ := by
  have hs : calcularScore (normalizar "La boda ").data
      (candidatoTexto ⟨1, "La boda ", some "x", [], none, none⟩).data = 2/3 := by
    show (((((jsSplitWS (normalizar "La boda ").data).dedup).filter (fun p =>
        (jsSplitWS
          (candidatoTexto ⟨1, "La boda ", some "x", [], none, none⟩).data).contains p)).length :
        ℚ)) /
      (max (((jsSplitWS (normalizar "La boda ").data).dedup.length : Nat) : ℚ) 1) = 2/3
    rw [show ((((jsSplitWS (normalizar "La boda ").data).dedup).filter (fun p =>
        (jsSplitWS
          (candidatoTexto ⟨1, "La boda ", some "x", [], none, none⟩).data).contains p)).length) =
      2 from by decide]
    rw [show (jsSplitWS (normalizar "La boda ").data).dedup.length = 3 from by decide]
    norm_num
  refine ⟨hs, by norm_num, ?_⟩
  show (if (1 : ℚ)/5 <
      (pickTopAux ((⟨1, "La boda ", some "x", [], none, none⟩ : Evento),
        calcularScore (normalizar "La boda ").data
          (candidatoTexto ⟨1, "La boda ", some "x", [], none, none⟩).data) []).2 then
      some (pickTopAux ((⟨1, "La boda ", some "x", [], none, none⟩ : Evento),
        calcularScore (normalizar "La boda ").data
          (candidatoTexto ⟨1, "La boda ", some "x", [], none, none⟩).data) []).1
    else none) = some ⟨1, "La boda ", some "x", [], none, none⟩
  rw [show (pickTopAux ((⟨1, "La boda ", some "x", [], none, none⟩ : Evento),
      calcularScore (normalizar "La boda ").data
        (candidatoTexto ⟨1, "La boda ", some "x", [], none, none⟩).data) []).2 =
    calcularScore (normalizar "La boda ").data
      (candidatoTexto ⟨1, "La boda ", some "x", [], none, none⟩).data from rfl]
  rw [hs]
  rw [if_pos (by norm_num)]
  rfl

/-- C5 as amended: the fuzzy ranker returns an event only when its
token-overlap score strictly exceeds 0.2 and no event scores higher;
when it returns nothing every score is at most 0.2; and whenever the
normalized question is the fold of some listed event's name AND that
folded name does not end in whitespace, that event's score is exactly 1
and the ranker selects an event of score 1 (without the trailing
whitespace proviso the score can fall below 1, as the counterexample
shows). -/
theorem fuzzy_ranker_amended :
    (∀ (texto : String) (eventos : List Evento) (r : Evento),
      buscarEventoSimilarCore texto eventos = some r →
        r ∈ eventos ∧ (1 : ℚ)/5 < calcularScore texto.data (candidatoTexto r).data ∧
        ∀ e ∈ eventos, calcularScore texto.data (candidatoTexto e).data ≤
          calcularScore texto.data (candidatoTexto r).data) ∧
    (∀ (texto : String) (eventos : List Evento),
      buscarEventoSimilarCore texto eventos = none →
        ∀ e ∈ eventos, calcularScore texto.data (candidatoTexto e).data ≤ (1 : ℚ)/5) ∧
    (∀ (eventos : List Evento) (e : Evento), e ∈ eventos →
      isJsWS ((limpiarTexto e.nombre).data.getLastD 'a') = false →
        calcularScore (normalizar e.nombre).data (candidatoTexto e).data = 1 ∧
        ∃ r, buscarEventoSimilarCore (normalizar e.nombre) eventos = some r ∧
          calcularScore (normalizar e.nombre).data (candidatoTexto r).data = 1) := by
  have hmap : ∀ (texto : String) (e0 : Evento) (rest : List Evento),
      (e0, calcularScore texto.data (candidatoTexto e0).data) ::
        rest.map (fun e => (e, calcularScore texto.data (candidatoTexto e).data)) =
      (e0 :: rest).map (fun e => (e, calcularScore texto.data (candidatoTexto e).data)) := by
    intro texto e0 rest
    rw [List.map_cons]
  refine ⟨?_, ?_, ?_⟩
  · intro texto eventos r hr
    cases eventos with
    | nil => simp [buscarEventoSimilarCore] at hr
    | cons e0 rest =>
        simp only [buscarEventoSimilarCore, List.map_cons] at hr
        by_cases hth : (1 : ℚ)/5 <
            (pickTopAux (e0, calcularScore texto.data (candidatoTexto e0).data)
              (rest.map (fun e => (e, calcularScore texto.data (candidatoTexto e).data)))).2
        · rw [if_pos hth] at hr
          have hre := Option.some.inj hr
          have htopmem := pickTopAux_mem
            (e0, calcularScore texto.data (candidatoTexto e0).data)
            (rest.map (fun e => (e, calcularScore texto.data (candidatoTexto e).data)))
          rw [hmap texto e0 rest] at htopmem
          obtain ⟨e', he', hpair⟩ := List.mem_map.mp htopmem
          have h1 : r = e' := by rw [← hre, ← hpair]
          have h2 : (pickTopAux (e0, calcularScore texto.data (candidatoTexto e0).data)
              (rest.map (fun e => (e, calcularScore texto.data (candidatoTexto e).data)))).2 =
              calcularScore texto.data (candidatoTexto r).data := by
            rw [h1, ← hpair]
          refine ⟨h1 ▸ he', h2 ▸ hth, ?_⟩
          intro e he
          have hmem : (e, calcularScore texto.data (candidatoTexto e).data) ∈
              (e0, calcularScore texto.data (candidatoTexto e0).data) ::
                rest.map (fun e => (e, calcularScore texto.data (candidatoTexto e).data)) := by
            rw [hmap texto e0 rest]
            exact List.mem_map.mpr ⟨e, he, rfl⟩
          have := pickTopAux_le _ _ _ hmem
          rw [h2] at this
          exact this
        · rw [if_neg hth] at hr
          cases hr
  · intro texto eventos hn e he
    cases eventos with
    | nil => exact absurd he (List.not_mem_nil e)
    | cons e0 rest =>
        simp only [buscarEventoSimilarCore, List.map_cons] at hn
        by_cases hth : (1 : ℚ)/5 <
            (pickTopAux (e0, calcularScore texto.data (candidatoTexto e0).data)
              (rest.map (fun e => (e, calcularScore texto.data (candidatoTexto e).data)))).2
        · rw [if_pos hth] at hn
          cases hn
        · rw [if_neg hth] at hn
          have hmem : (e, calcularScore texto.data (candidatoTexto e).data) ∈
              (e0, calcularScore texto.data (candidatoTexto e0).data) ::
                rest.map (fun e => (e, calcularScore texto.data (candidatoTexto e).data)) := by
            rw [hmap texto e0 rest]
            exact List.mem_map.mpr ⟨e, he, rfl⟩
          exact le_trans (pickTopAux_le _ _ _ hmem) (le_of_not_lt hth)
  · intro eventos e he hws
    have hscore : calcularScore (normalizar e.nombre).data (candidatoTexto e).data = 1 :=
      subset_score_one _ _ (candidato_superset e hws)
    refine ⟨hscore, ?_⟩
    cases eventos with
    | nil => exact absurd he (List.not_mem_nil e)
    | cons e0 rest =>
        have hmem : (e, calcularScore (normalizar e.nombre).data (candidatoTexto e).data) ∈
            (e0, calcularScore (normalizar e.nombre).data (candidatoTexto e0).data) ::
              rest.map (fun ev =>
                (ev, calcularScore (normalizar e.nombre).data (candidatoTexto ev).data)) := by
          rw [hmap (normalizar e.nombre) e0 rest]
          exact List.mem_map.mpr ⟨e, he, rfl⟩
        have hge := pickTopAux_le _ _ _ hmem
        rw [hscore] at hge
        have htopmem := pickTopAux_mem
          (e0, calcularScore (normalizar e.nombre).data (candidatoTexto e0).data)
          (rest.map (fun ev =>
            (ev, calcularScore (normalizar e.nombre).data (candidatoTexto ev).data)))
        rw [hmap (normalizar e.nombre) e0 rest] at htopmem
        obtain ⟨e', he', hpair⟩ := List.mem_map.mp htopmem
        have htople : (pickTopAux (e0, calcularScore (normalizar e.nombre).data
            (candidatoTexto e0).data)
            (rest.map (fun ev =>
              (ev, calcularScore (normalizar e.nombre).data (candidatoTexto ev).data)))).2 =
            calcularScore (normalizar e.nombre).data (candidatoTexto e').data := by
          rw [← hpair]
        have htopone : (pickTopAux (e0, calcularScore (normalizar e.nombre).data
            (candidatoTexto e0).data)
            (rest.map (fun ev =>
              (ev, calcularScore (normalizar e.nombre).data (candidatoTexto ev).data)))).2 = 1 :=
          le_antisymm (htople ▸ score_le_one _ _) hge
        have hth : (1 : ℚ)/5 < (pickTopAux (e0, calcularScore (normalizar e.nombre).data
            (candidatoTexto e0).data)
            (rest.map (fun ev =>
              (ev, calcularScore (normalizar e.nombre).data (candidatoTexto ev).data)))).2 := by
          rw [htopone]
          norm_num
        refine ⟨(pickTopAux (e0, calcularScore (normalizar e.nombre).data
            (candidatoTexto e0).data)
            (rest.map (fun ev =>
              (ev, calcularScore (normalizar e.nombre).data (candidatoTexto ev).data)))).1,
          ?_, ?_⟩
        · simp only [buscarEventoSimilarCore, List.map_cons]
          rw [if_pos hth]
        · have hpfst : (pickTopAux (e0, calcularScore (normalizar e.nombre).data
              (candidatoTexto e0).data)
              (rest.map (fun ev =>
                (ev, calcularScore (normalizar e.nombre).data (candidatoTexto ev).data)))).1 =
              e' := by
            rw [← hpair]
          rw [hpfst, ← htople, htopone]

/-- Witness for `fuzzy_ranker_amended`: its third conjunct applied to
the one-event store whose event is named "La boda", with the question
equal to that name. -/
theorem fuzzy_ranker_amended_witness :
    (⟨1, "La boda", none, [], none, none⟩ : Evento) ∈
        [(⟨1, "La boda", none, [], none, none⟩ : Evento)] ∧
    isJsWS ((limpiarTexto "La boda").data.getLastD 'a') = false ∧
    (calcularScore (normalizar "La boda").data
        (candidatoTexto ⟨1, "La boda", none, [], none, none⟩).data = 1 ∧
      ∃ r, buscarEventoSimilarCore (normalizar "La boda")
          [(⟨1, "La boda", none, [], none, none⟩ : Evento)] = some r ∧
        calcularScore (normalizar "La boda").data (candidatoTexto r).data = 1) :=
  ⟨by decide, by decide,
   fuzzy_ranker_amended.2.2 [⟨1, "La boda", none, [], none, none⟩]
     ⟨1, "La boda", none, [], none, none⟩ (by decide) (by decide)⟩


theorem map_toLower_self (l : List Char) (h : ∀ c ∈ l, toLowerChar c = c) :
    l.map toLowerChar = l := by
  induction l with
  | nil => rfl
  | cons c t ih =>
      rw [List.map_cons, h c (List.mem_cons_self c t),
        ih (fun d hd => h d (List.mem_cons_of_mem c hd))]

theorem mem_of_head?_eq (l : List Char) (c : Char) (h : l.head? = some c) : c ∈ l := by
  cases l with
  | nil => simp at h
  | cons a t =>
      rw [show (a :: t).head? = some a from rfl] at h
      rw [← Option.some.inj h]
      exact List.mem_cons_self a t

theorem mem_of_getLast?_eq (l : List Char) (c : Char) (h : l.getLast? = some c) : c ∈ l := by
  cases l with
  | nil => simp at h
  | cons a t =>
      rw [List.getLast?_eq_getLast (a :: t) (List.cons_ne_nil a t)] at h
      rw [← Option.some.inj h]
      exact List.getLast_mem _

theorem getLast?_append_right (p r : List Char) (h : r ≠ []) :
    (p ++ r).getLast? = r.getLast? := by
  rw [← List.head?_reverse, ← List.head?_reverse, List.reverse_append]
  cases hr : r.reverse with
  | nil =>
      exact absurd (by rw [← List.reverse_reverse r, hr]; rfl) h
  | cons a t => rfl

theorem stripRuns_eq_self (p : Char → Bool) (l : List Char)
    (hh : ∀ c, l.head? = some c → p c = false)
    (hl : ∀ c, l.getLast? = some c → p c = false) :
    ((l.dropWhile p).reverse.dropWhile p).reverse = l := by
  have h1 : l.dropWhile p = l := by
    cases l with
    | nil => rfl
    | cons a t => exact List.dropWhile_cons_of_neg (by simp [hh a rfl])
  rw [h1]
  have h2 : l.reverse.dropWhile p = l.reverse := by
    cases hr : l.reverse with
    | nil => rfl
    | cons a t =>
        refine List.dropWhile_cons_of_neg ?_
        have hgl : l.getLast? = some a := by rw [← List.head?_reverse, hr]; rfl
        simp [hl a hgl]
  rw [h2, List.reverse_reverse]

theorem trimChars_eq_self (l : List Char)
    (hh : ∀ c, l.head? = some c → isJsWS c = false)
    (hl : ∀ c, l.getLast? = some c → isJsWS c = false) : trimChars l = l :=
  stripRuns_eq_self isJsWS l hh hl

theorem stripSignos_eq_self (l : List Char)
    (hh : ∀ c, l.head? = some c → isSigno c = false)
    (hl : ∀ c, l.getLast? = some c → isSigno c = false) : stripSignos l = l :=
  stripRuns_eq_self isSigno l hh hl

theorem stripTailPunct_subset (l : List Char) : ∀ c ∈ stripTailPunct l, c ∈ l := by
  intro c hcm
  rw [stripTailPunct, List.mem_reverse] at hcm
  exact List.mem_reverse.mp ((List.dropWhile_sublist isPunctTail).mem hcm)

theorem dropLit_self_append (kw r : List Char) : dropLit kw (kw ++ r) = some r := by
  induction kw with
  | nil => rfl
  | cons c t ih => simp [dropLit, ih]

theorem dropLit_some_eq (kw : List Char) :
    ∀ s r, dropLit kw s = some r → s = kw ++ r := by
  induction kw with
  | nil =>
      intro s r h
      rw [show dropLit [] s = some s from rfl] at h
      rw [List.nil_append, Option.some.inj h]
  | cons c t ih =>
      intro s r h
      cases s with
      | nil => simp [dropLit] at h
      | cons a s' =>
          rw [show dropLit (c :: t) (a :: s') = if a = c then dropLit t s' else none
            from rfl] at h
          by_cases hac : a = c
          · rw [if_pos hac] at h
            rw [List.cons_append, hac, ih s' r h]
          · rw [if_neg hac] at h
            cases h

theorem takeWhile_nil_of_all (p : Char → Bool) (l : List Char)
    (h : ∀ c ∈ l, p c = false) : l.takeWhile p = [] := by
  cases l with
  | nil => rfl
  | cons a t => exact List.takeWhile_cons_of_neg (by simp [h a (List.mem_cons_self a t)])

theorem dropWhile_self_of_all (p : Char → Bool) (l : List Char)
    (h : ∀ c ∈ l, p c = false) : l.dropWhile p = l := by
  cases l with
  | nil => rfl
  | cons a t => exact List.dropWhile_cons_of_neg (by simp [h a (List.mem_cons_self a t)])

theorem wsCapture_space (r : List Char) (hne : r ≠ [])
    (h : ∀ c ∈ r, isJsWS c = false ∧ isDotChar c = true) :
    wsCapture (' ' :: r) = some r := by
  have hw : (' ' :: r).takeWhile isJsWS = [' '] := by
    rw [List.takeWhile_cons_of_pos (by decide),
      takeWhile_nil_of_all isJsWS r (fun c hc => (h c hc).1)]
  have hcap : (' ' :: r).dropWhile isJsWS = r := by
    rw [List.dropWhile_cons_of_pos (by decide),
      dropWhile_self_of_all isJsWS r (fun c hc => (h c hc).1)]
  simp only [wsCapture, hw, hcap]
  have hne' : r.isEmpty = false := by
    cases r with
    | nil => exact absurd rfl hne
    | cons a t => rfl
  have hdot : r.all isDotChar = true := List.all_eq_true.mpr (fun c hc => (h c hc).2)
  rw [hne', hdot]
  rfl


theorem tplCapture_of_dropLit_none (kw s : List Char) (h : dropLit kw s = none) :
    tplCapture kw s = none := by
  simp only [tplCapture, h]

theorem tplCapture_of_dropLit_some (kw s r : List Char) (h : dropLit kw s = some r) :
    tplCapture kw s = wsCapture r := by
  simp only [tplCapture, h]

theorem existeCapture_pos (mid : String) (s t : List Char)
    (h : tplCapture ("existen" ++ mid).data s = some t) :
    existeCapture mid s = some ['n'] := by
  simp only [existeCapture, h]

theorem existeCapture_neg (mid : String) (s : List Char)
    (h : tplCapture ("existen" ++ mid).data s = none) :
    existeCapture mid s = tplCapture ("existe" ++ mid).data s := by
  simp only [existeCapture, h]

theorem findSome?_cons_none (f : (List Char → Option (List Char)) → Option (List Char))
    (a : List Char → Option (List Char)) (l : List (List Char → Option (List Char)))
    (h : f a = none) : List.findSome? f (a :: l) = List.findSome? f l := by
  rw [List.findSome?_cons, h]

theorem findSome?_cons_some (f : (List Char → Option (List Char)) → Option (List Char))
    (a : List Char → Option (List Char)) (l : List (List Char → Option (List Char)))
    (b : List Char) (h : f a = some b) : List.findSome? f (a :: l) = some b := by
  rw [List.findSome?_cons, h]

theorem detectarExistencia_eval (s : String) :
    detectarExistencia s = Option.map finishTerm
      (existPatterns.findSome? (fun f =>
        f (trimChars (stripSignos (trimChars (jsToLowerCase s).data))))) := by
  have h : ∀ X : Option (List Char),
      (match X with
       | some t => some (finishTerm t)
       | none => none) = Option.map finishTerm X := by
    intro X
    cases X <;> rfl
  exact h _

theorem existeCapture_none_of (mid : String) (s : List Char)
    (hN : tplCapture ("existen" ++ mid).data s = none)
    (hE : tplCapture ("existe" ++ mid).data s = none) :
    existeCapture mid s = none := by
  rw [existeCapture_neg mid s hN, hE]

theorem preproc_concrete (pre rest : String)
    (hrne : rest.data ≠ [])
    (hplow : pre.data.map toLowerChar = pre.data)
    (hrest : ∀ c ∈ rest.data, isJsWS c = false ∧ isSigno c = false ∧ toLowerChar c = c)
    (hhead : ∀ c, pre.data.head? = some c → isJsWS c = false ∧ isSigno c = false) :
    trimChars (stripSignos (trimChars (jsToLowerCase (pre ++ rest)).data)) =
      pre.data ++ rest.data := by
  have hdata : (jsToLowerCase (pre ++ rest)).data = pre.data ++ rest.data := by
    show ((pre ++ rest).data.map toLowerChar) = _
    rw [String.data_append, List.map_append, hplow,
      map_toLower_self rest.data (fun c h => (hrest c h).2.2)]
  rw [hdata]
  have hh : ∀ c, (pre.data ++ rest.data).head? = some c →
      isJsWS c = false ∧ isSigno c = false := by
    intro c hcq
    cases hp : pre.data with
    | nil =>
        rw [hp, List.nil_append] at hcq
        have hm := mem_of_head?_eq rest.data c hcq
        exact ⟨(hrest c hm).1, (hrest c hm).2.1⟩
    | cons a t =>
        rw [hp] at hcq
        rw [show ((a :: t) ++ rest.data).head? = some a from rfl] at hcq
        rw [← Option.some.inj hcq]
        exact hhead a (by rw [hp]; rfl)
  have hgl : ∀ c, (pre.data ++ rest.data).getLast? = some c →
      isJsWS c = false ∧ isSigno c = false := by
    intro c hcq
    rw [getLast?_append_right pre.data rest.data hrne] at hcq
    have hm := mem_of_getLast?_eq rest.data c hcq
    exact ⟨(hrest c hm).1, (hrest c hm).2.1⟩
  rw [trimChars_eq_self _ (fun c h => (hh c h).1) (fun c h => (hgl c h).1)]
  rw [stripSignos_eq_self _ (fun c h => (hh c h).2) (fun c h => (hgl c h).2)]
  rw [trimChars_eq_self _ (fun c h => (hh c h).1) (fun c h => (hgl c h).1)]

theorem finishTerm_of_nonws (r : List Char) (h : ∀ c ∈ r, isJsWS c = false) :
    finishTerm r = limpiarTexto ⟨stripTailPunct r⟩ := by
  rw [finishTerm]
  rw [trimChars_eq_self r (fun c hc => h c (mem_of_head?_eq r c hc))
    (fun c hc => h c (mem_of_getLast?_eq r c hc))]
  rw [trimChars_eq_self (stripTailPunct r)
    (fun c hc => h c (stripTailPunct_subset r c (mem_of_head?_eq _ c hc)))
    (fun c hc => h c (stripTailPunct_subset r c (mem_of_getLast?_eq _ c hc)))]

/-- C4 counterexample: on the question "¿Existen guerras?" the spec's
reading of the templates captures the term "guerras" (the `<X>` of
`existe(n)? <X>`), but the code takes `m[1] || m[2]`, and when the
optional `(n)` participates in the match `m[1]` is the truthy string
"n", so the code returns "n". -/
theorem existence_detector_counterexample :
    detectarExistencia "¿Existen guerras?" = some "n" ∧
    detectExistenceTermSpec "¿Existen guerras?" = some "guerras" ∧
    ("n" : String) ≠ "guerras" :=
  ⟨by decide, by decide, by decide⟩

/-- C4 as amended: templates are tested in the stated order with the
first match winning, against the lower-cased text with surrounding
question marks stripped; the returned term is the first non-empty capture
group — the literal "n" whenever the optional `n` of an `existe(n)`
template matched, otherwise the template's `<X>` — trimmed, stripped of
trailing punctuation and folded.  The conjuncts show this symbolically
for "hubo alguna <X>", "existen <X>" and "existe <X>", and concretely
for every template, including the claim's two examples. -/
theorem existence_detector_amended :
    (∀ rest : String, rest.data ≠ [] →
      (∀ c ∈ rest.data, isJsWS c = false ∧ isDotChar c = true ∧ isSigno c = false ∧
        toLowerChar c = c) →
      detectarExistencia ("hubo alguna " ++ rest) =
          some (limpiarTexto ⟨stripTailPunct rest.data⟩) ∧
      detectarExistencia ("existen " ++ rest) = some "n" ∧
      detectarExistencia ("existe " ++ rest) =
          some (limpiarTexto ⟨stripTailPunct rest.data⟩)) ∧
    detectarExistencia "¿Hubo alguna guerra?" = some "guerra" ∧
    detectarExistencia "¿Qué pasó?" = none ∧
    detectarExistencia "hubo guerra" = some "guerra" ∧
    detectarExistencia "¿Existe alguna maldición?" = some "maldicion" ∧
    detectarExistencia "existió Macondo" = some "macondo" ∧
    detectarExistencia "¿Hay alguna esperanza?" = some "esperanza" ∧
    detectarExistencia "hay fantasmas." = some "fantasmas" := by
  refine ⟨?_, by decide, by decide, by decide, by decide, by decide, by decide, by decide⟩
  intro rest hrne hc
  have hrest : ∀ c ∈ rest.data, isJsWS c = false ∧ isSigno c = false ∧ toLowerChar c = c :=
    fun c hm => ⟨(hc c hm).1, (hc c hm).2.2.1, (hc c hm).2.2.2⟩
  have hwsdot : ∀ c ∈ rest.data, isJsWS c = false ∧ isDotChar c = true :=
    fun c hm => ⟨(hc c hm).1, (hc c hm).2.1⟩
  have hws : ∀ c ∈ rest.data, isJsWS c = false := fun c hm => (hc c hm).1
  have hfin : finishTerm rest.data = limpiarTexto ⟨stripTailPunct rest.data⟩ :=
    finishTerm_of_nonws rest.data hws
  have hlist : existPatterns = tplCapture "hubo alguna".data :: tplCapture "hubo".data ::
      existeCapture " alguna" :: existeCapture "" :: tplCapture "existió".data ::
      tplCapture "hay alguna".data :: tplCapture "hay".data :: [] := rfl
  refine ⟨?_, ?_, ?_⟩
  · -- "hubo alguna <rest>"
    rw [detectarExistencia_eval,
      preproc_concrete "hubo alguna " rest hrne (by decide) hrest (by decide), hlist]
    have e1 : tplCapture "hubo alguna".data ("hubo alguna ".data ++ rest.data) =
        some rest.data :=
      (tplCapture_of_dropLit_some "hubo alguna".data ("hubo alguna ".data ++ rest.data)
          (' ' :: rest.data) rfl).trans
        (wsCapture_space rest.data hrne hwsdot)
    rw [findSome?_cons_some (fun f => f ("hubo alguna ".data ++ rest.data))
      (tplCapture "hubo alguna".data) _ rest.data e1]
    show some (finishTerm rest.data) = _
    rw [hfin]
  · -- "existen <rest>"
    rw [detectarExistencia_eval,
      preproc_concrete "existen " rest hrne (by decide) hrest (by decide), hlist]
    have e1 : tplCapture "hubo alguna".data ("existen ".data ++ rest.data) = none := rfl
    have e2 : tplCapture "hubo".data ("existen ".data ++ rest.data) = none := rfl
    have e3 : existeCapture " alguna" ("existen ".data ++ rest.data) = none := by
      have hE : tplCapture ("existe" ++ " alguna").data ("existen ".data ++ rest.data) =
          none := rfl
      have hbridge : dropLit ("existen" ++ " alguna").data ("existen ".data ++ rest.data) =
          dropLit "alguna".data rest.data := rfl
      cases hdl : dropLit "alguna".data rest.data with
      | none =>
          exact existeCapture_none_of " alguna" _
            (tplCapture_of_dropLit_none _ _ (hbridge.trans hdl)) hE
      | some r' =>
          have hr' : ∀ c ∈ r', isJsWS c = false := by
            intro c hcm
            have heq := dropLit_some_eq "alguna".data rest.data r' hdl
            exact hws c (by rw [heq]; exact List.mem_append_right _ hcm)
          have hwc : wsCapture r' = none := by
            simp only [wsCapture, takeWhile_nil_of_all isJsWS r' hr']
            rfl
          exact existeCapture_none_of " alguna" _
            ((tplCapture_of_dropLit_some _ _ r' (hbridge.trans hdl)).trans hwc) hE
    have e4 : existeCapture "" ("existen ".data ++ rest.data) = some ['n'] :=
      existeCapture_pos "" _ rest.data
        ((tplCapture_of_dropLit_some ("existen" ++ "").data ("existen ".data ++ rest.data)
            (' ' :: rest.data) rfl).trans
          (wsCapture_space rest.data hrne hwsdot))
    rw [findSome?_cons_none (fun f => f ("existen ".data ++ rest.data))
        (tplCapture "hubo alguna".data) _ e1,
      findSome?_cons_none (fun f => f ("existen ".data ++ rest.data))
        (tplCapture "hubo".data) _ e2,
      findSome?_cons_none (fun f => f ("existen ".data ++ rest.data))
        (existeCapture " alguna") _ e3,
      findSome?_cons_some (fun f => f ("existen ".data ++ rest.data))
        (existeCapture "") _ (['n']) e4]
    rfl
  · -- "existe <rest>"
    rw [detectarExistencia_eval,
      preproc_concrete "existe " rest hrne (by decide) hrest (by decide), hlist]
    have e1 : tplCapture "hubo alguna".data ("existe ".data ++ rest.data) = none := rfl
    have e2 : tplCapture "hubo".data ("existe ".data ++ rest.data) = none := rfl
    have e3 : existeCapture " alguna" ("existe ".data ++ rest.data) = none := by
      have hN : tplCapture ("existen" ++ " alguna").data ("existe ".data ++ rest.data) =
          none := rfl
      have hbridge : dropLit ("existe" ++ " alguna").data ("existe ".data ++ rest.data) =
          dropLit "alguna".data rest.data := rfl
      cases hdl : dropLit "alguna".data rest.data with
      | none =>
          exact existeCapture_none_of " alguna" _ hN
            (tplCapture_of_dropLit_none _ _ (hbridge.trans hdl))
      | some r' =>
          have hr' : ∀ c ∈ r', isJsWS c = false := by
            intro c hcm
            have heq := dropLit_some_eq "alguna".data rest.data r' hdl
            exact hws c (by rw [heq]; exact List.mem_append_right _ hcm)
          have hwc : wsCapture r' = none := by
            simp only [wsCapture, takeWhile_nil_of_all isJsWS r' hr']
            rfl
          exact existeCapture_none_of " alguna" _ hN
            ((tplCapture_of_dropLit_some _ _ r' (hbridge.trans hdl)).trans hwc)
    have e4 : existeCapture "" ("existe ".data ++ rest.data) = some rest.data := by
      rw [existeCapture_neg "" ("existe ".data ++ rest.data) rfl]
      exact (tplCapture_of_dropLit_some ("existe" ++ "").data ("existe ".data ++ rest.data)
          (' ' :: rest.data) rfl).trans
        (wsCapture_space rest.data hrne hwsdot)
    rw [findSome?_cons_none (fun f => f ("existe ".data ++ rest.data))
        (tplCapture "hubo alguna".data) _ e1,
      findSome?_cons_none (fun f => f ("existe ".data ++ rest.data))
        (tplCapture "hubo".data) _ e2,
      findSome?_cons_none (fun f => f ("existe ".data ++ rest.data))
        (existeCapture " alguna") _ e3,
      findSome?_cons_some (fun f => f ("existe ".data ++ rest.data))
        (existeCapture "") _ rest.data e4]
    show some (finishTerm rest.data) = _
    rw [hfin]

/-- Witness for `existence_detector_amended`: its symbolic conjunct
applied at the term "guerras". -/
theorem existence_detector_amended_witness :
    ("guerras" : String).data ≠ [] ∧
    (∀ c ∈ ("guerras" : String).data, isJsWS c = false ∧ isDotChar c = true ∧
      isSigno c = false ∧ toLowerChar c = c) ∧
    (detectarExistencia ("hubo alguna " ++ "guerras") =
        some (limpiarTexto ⟨stripTailPunct ("guerras" : String).data⟩) ∧
      detectarExistencia ("existen " ++ "guerras") = some "n" ∧
      detectarExistencia ("existe " ++ "guerras") =
        some (limpiarTexto ⟨stripTailPunct ("guerras" : String).data⟩)) :=
  ⟨by decide, by decide, existence_detector_amended.1 "guerras" (by decide) (by decide)⟩


/-- The document store with its five collections, together with a
read-failure flag per collection: a raised flag makes every read of that
collection reject, modeling an outage of the underlying database. -/
structure Store where
  capitulos : List Capitulo
  personajes : List Personaje
  lugares : List Lugar
  objetos : List Objeto
  eventos : List Evento
  capitulosFail : Bool := false
  personajesFail : Bool := false
  lugaresFail : Bool := false
  objetosFail : Bool := false
  eventosFail : Bool := false
deriving DecidableEq, Repr

/-- Read of the chapters collection. -/
def readCapitulos (st : Store) : Except Unit (List Capitulo) :=
  if st.capitulosFail then Except.error () else Except.ok st.capitulos

/-- Read of the characters collection. -/
def readPersonajes (st : Store) : Except Unit (List Personaje) :=
  if st.personajesFail then Except.error () else Except.ok st.personajes

/-- Read of the places collection. -/
def readLugares (st : Store) : Except Unit (List Lugar) :=
  if st.lugaresFail then Except.error () else Except.ok st.lugares

/-- Read of the objects collection. -/
def readObjetos (st : Store) : Except Unit (List Objeto) :=
  if st.objetosFail then Except.error () else Except.ok st.objetos

/-- Read of the events collection. -/
def readEventos (st : Store) : Except Unit (List Evento) :=
  if st.eventosFail then Except.error () else Except.ok st.eventos

/-- The result of `analizarPregunta` (nlpProcessor.js lines 284–292). -/
structure Analysis where
  capitulo : Option Nat
  terminoExistencia : Option String
  regexVerbos : List String
  personajes : List String
  lugares : List String
  objetos : List String
  fuzzy : Option Evento
deriving DecidableEq, Repr

/-- `analizarPregunta` (nlpProcessor.js lines 225–293): chapter
re-detection on the normalized text, existence detection on the raw
question, the three entity reads (whose failures propagate to the caller,
which does not catch them), verb detection on the folded raw question,
and the fuzzy search (whose own events-read failure is caught inside
`buscarEventoSimilar` and turned into `null`), run only when the
question is not an existence question. -/
def analizarPregunta (st : Store) (pregunta : String) : Except Unit Analysis :=
  match readPersonajes st with
  | Except.error e => Except.error e
  | Except.ok personajesBD =>
      match readLugares st with
      | Except.error e => Except.error e
      | Except.ok lugaresBD =>
          match readObjetos st with
          | Except.error e => Except.error e
          | Except.ok objetosBD =>
              Except.ok
                { capitulo := capRegexMatch (normalizar pregunta)
                  terminoExistencia := detectarExistencia pregunta
                  regexVerbos := detectarVerbos pregunta
                  personajes := detectarPersonajes personajesBD (normalizar pregunta)
                  lugares := detectarLugares lugaresBD (normalizar pregunta)
                  objetos := detectarObjetos objetosBD (normalizar pregunta)
                  fuzzy := if (detectarExistencia pregunta).isNone then
                      buscarEventoSimilarE (readEventos st) pregunta
                    else none }

/-- Tag of the route's JSON response (`capitulo` field). -/
inductive CapTag where
  | num (n : Nat)
  | similar
  | existencia
  | todos
deriving DecidableEq, Repr

/-- Outcome of `GET /api/preguntas`.  `unhandled` models an `await` that
rejects outside the `try` block (the chapter shortcut and the analysis
call): in Express 4 such a rejection is not converted into a response. -/
inductive RouteResult where
  | ok (capitulo : CapTag) (resultados : List Evento) (termino : Option String)
  | badRequest
  | notFound
  | internalError
  | unhandled
deriving DecidableEq, Repr

/-- Mongoose `populate` of a chapter's event references: each id is
resolved against the events collection; unresolved references are
dropped from the populated array. -/
def populateEventos (eventos : List Evento) (ids : List Nat) : List Evento :=
  ids.filterMap (fun i => eventos.find? (fun e => e.id = i))

/-- Strict second-pass resolution of matched character names to ids
(preguntas.js lines 108–115): exact full-string case-insensitive match
of the stored name against a detected name. -/
def resolvePersonajeIds (bd : List Personaje) (nombres : List String) : List Nat :=
  (bd.filter (fun p =>
    nombres.any (fun n => jsToLowerCase p.nombre = jsToLowerCase n))).map (fun p => p.id)

/-- Same strict resolution for place names (lines 116–123). -/
def resolveLugarIds (bd : List Lugar) (nombres : List String) : List Nat :=
  (bd.filter (fun l =>
    nombres.any (fun n => jsToLowerCase l.nombre = jsToLowerCase n))).map (fun l => l.id)

/-- Resolution of matched object names to the events they reference
(lines 125–134); objects without an `evento_relacionado` are dropped. -/
def resolveEventosDesdeObjetos (bd : List Objeto) (nombres : List String) : List Nat :=
  (bd.filter (fun o =>
    nombres.any (fun n => jsToLowerCase o.nombre = jsToLowerCase n))).filterMap
    (fun o => o.evento_relacionado)

/-- The `$or` clause over the verb patterns (lines 177–185): some pattern
matches the event's description or name as a whole word,
case-insensitively, on the raw stored text. -/
def matchesVerbClause (pats : List String) (e : Evento) : Bool :=
  pats.any (fun p =>
    (match e.descripcion with
     | some d => testWB p.data (jsToLowerCase d).data
     | none => false) ||
    testWB p.data (jsToLowerCase e.nombre).data)

/-- The conjunctive primary filter of lines 176–198: each clause is
imposed only when its input list is non-empty; `$in` on the character
array asks for a non-empty intersection and `$in` on scalar references
for membership. -/
def matchesFiltro (pats : List String) (personajeIds lugarIds eventosDesdeObjetos : List Nat)
    (e : Evento) : Bool :=
  (pats.isEmpty || matchesVerbClause pats e) &&
  (personajeIds.isEmpty ||
    e.personajes_involucrados.any (fun i => personajeIds.contains i)) &&
  (lugarIds.isEmpty ||
    (match e.lugar_relacionado with
     | some l => lugarIds.contains l
     | none => false)) &&
  (eventosDesdeObjetos.isEmpty || eventosDesdeObjetos.contains e.id)

/-- The normalizer local to the existence branch (preguntas.js lines
144–145): fold plus removal of every character that is neither an ASCII
word character nor whitespace. -/
def normalizarTextoRoute (s : String) : String :=
  ⟨(cleanChars s.data).filter (fun c => isWordChar c || isJsWS c)⟩

/-- The existence branch's event scan (lines 149–160): filter all events
by substring containment of the normalized term in the normalized name
or description, then re-fetch the matching documents by id. -/
def eventosExistencia (eventos : List Evento) (termino : String) : List Evento :=
  let coincidentes := eventos.filter (fun e =>
    containsRun (normalizarTextoRoute termino).data (normalizarTextoRoute e.nombre).data ||
    containsRun (normalizarTextoRoute termino).data
      (normalizarTextoRoute (e.descripcion.getD "")).data)
  eventos.filter (fun e => (coincidentes.map (fun x => x.id)).contains e.id)

/-- The fallback cascade of lines 205–220: an `else if` chain keyed on
the non-emptiness of the detected id lists, in the priority order
objects, characters, places; the branch taken returns its own query
result even when that result is empty. -/
def fallbackCascade (eventos : List Evento) (personajeIds lugarIds eventosDesdeObjetos : List Nat)
    (resultados : List Evento) : List Evento :=
  if resultados.isEmpty && !eventosDesdeObjetos.isEmpty then
    eventos.filter (fun e => eventosDesdeObjetos.contains e.id)
  else if resultados.isEmpty && !personajeIds.isEmpty then
    eventos.filter (fun e => e.personajes_involucrados.any (fun i => personajeIds.contains i))
  else if resultados.isEmpty && !lugarIds.isEmpty then
    eventos.filter (fun e =>
      match e.lugar_relacionado with
      | some l => lugarIds.contains l
      | none => false)
  else resultados

/-- Lines 137–223 after id resolution: the existence branch, the
zero-signal short circuit, the primary conjunctive query and the
fallback cascade. -/
def tryQuery (st : Store) (a : Analysis)
    (personajeIds lugarIds eventosDesdeObjetos : List Nat) : RouteResult :=
  match a.terminoExistencia with
  | some t =>
      match readEventos st with
      | Except.error _ => RouteResult.internalError
      | Except.ok evs =>
          RouteResult.ok CapTag.existencia (eventosExistencia evs t) (some t)
  | none =>
      if a.regexVerbos.isEmpty && personajeIds.isEmpty && lugarIds.isEmpty &&
          eventosDesdeObjetos.isEmpty then
        RouteResult.ok CapTag.todos [] none
      else
        match readEventos st with
        | Except.error _ => RouteResult.internalError
        | Except.ok evs =>
            RouteResult.ok CapTag.todos
              (fallbackCascade evs personajeIds lugarIds eventosDesdeObjetos
                (evs.filter
                  (matchesFiltro a.regexVerbos personajeIds lugarIds eventosDesdeObjetos)))
              none

/-- Lines 106–135: the three strict resolution reads, each performed only
when its detected-name list is non-empty, inside the `try` block — so a
failure becomes the generic internal error. -/
def tryResolve (st : Store) (a : Analysis) : RouteResult :=
  match (if a.personajes.isEmpty then Except.ok [] else
      (readPersonajes st).map (fun bd => resolvePersonajeIds bd a.personajes) :
      Except Unit (List Nat)) with
  | Except.error _ => RouteResult.internalError
  | Except.ok personajeIds =>
      match (if a.lugares.isEmpty then Except.ok [] else
          (readLugares st).map (fun bd => resolveLugarIds bd a.lugares) :
          Except Unit (List Nat)) with
      | Except.error _ => RouteResult.internalError
      | Except.ok lugarIds =>
          match (if a.objetos.isEmpty then Except.ok [] else
              (readObjetos st).map (fun bd => resolveEventosDesdeObjetos bd a.objetos) :
              Except Unit (List Nat)) with
          | Except.error _ => RouteResult.internalError
          | Except.ok eventosDesdeObjetos =>
              tryQuery st a personajeIds lugarIds eventosDesdeObjetos

/-- Lines 95–104: the fuzzy shortcut, taken when a fuzzy match exists and
the question is not an existence question. -/
def tryRest (st : Store) (a : Analysis) : RouteResult :=
  match a.fuzzy with
  | some ev =>
      if a.terminoExistencia.isNone then RouteResult.ok CapTag.similar [ev] none
      else tryResolve st a
  | none => tryResolve st a

/-- Lines 75–93: the secondary chapter branch inside the `try` block
(`if (capitulo)` — JavaScript truthiness, so chapter 0 is skipped): a
missing chapter is a 404 here, unlike in the shortcut. -/
def tryBody (st : Store) (a : Analysis) : RouteResult :=
  match a.capitulo with
  | some n =>
      if n ≠ 0 then
        match readCapitulos st with
        | Except.error _ => RouteResult.internalError
        | Except.ok caps =>
            match caps.find? (fun c => c.numero = n) with
            | none => RouteResult.notFound
            | some cap =>
                match readEventos st with
                | Except.error _ => RouteResult.internalError
                | Except.ok evs =>
                    RouteResult.ok (CapTag.num n) (populateEventos evs cap.eventos) none
      else tryRest st a
  | none => tryRest st a

/-- `router.get('/')` of preguntas.js: empty question → 400; the chapter
shortcut (outside the `try`, so a failing read is an unhandled
rejection); otherwise the semantic analysis (also outside the `try`)
followed by the `try` body. -/
def routeGet (st : Store) (q : String) : RouteResult :=
  if (jsTrim q).data.isEmpty then RouteResult.badRequest
  else
    match capRegexMatch (jsTrim q) with
    | some n =>
        match readCapitulos st with
        | Except.error _ => RouteResult.unhandled
        | Except.ok caps =>
            match caps.find? (fun c => c.numero = n) with
            | none => RouteResult.ok (CapTag.num n) [] none
            | some cap =>
                match readEventos st with
                | Except.error _ => RouteResult.unhandled
                | Except.ok evs =>
                    RouteResult.ok (CapTag.num n) (populateEventos evs cap.eventos) none
    | none =>
        match analizarPregunta st (jsTrim q) with
        | Except.error _ => RouteResult.unhandled
        | Except.ok a => tryBody st a


theorem readCapitulos_ok (st : Store) (h : st.capitulosFail = false) :
    readCapitulos st = Except.ok st.capitulos := by
  unfold readCapitulos
  rw [h]
  rfl

theorem readPersonajes_ok (st : Store) (h : st.personajesFail = false) :
    readPersonajes st = Except.ok st.personajes := by
  unfold readPersonajes
  rw [h]
  rfl

theorem readPersonajes_err (st : Store) (h : st.personajesFail = true) :
    readPersonajes st = Except.error () := by
  unfold readPersonajes
  rw [h]
  rfl

theorem readLugares_ok (st : Store) (h : st.lugaresFail = false) :
    readLugares st = Except.ok st.lugares := by
  unfold readLugares
  rw [h]
  rfl

theorem readObjetos_ok (st : Store) (h : st.objetosFail = false) :
    readObjetos st = Except.ok st.objetos := by
  unfold readObjetos
  rw [h]
  rfl

theorem readEventos_ok (st : Store) (h : st.eventosFail = false) :
    readEventos st = Except.ok st.eventos := by
  unfold readEventos
  rw [h]
  rfl

theorem readEventos_err (st : Store) (h : st.eventosFail = true) :
    readEventos st = Except.error () := by
  unfold readEventos
  rw [h]
  rfl

theorem analizarPregunta_ok (st : Store) (pregunta : String)
    (hp : st.personajesFail = false) (hl : st.lugaresFail = false)
    (ho : st.objetosFail = false) :
    analizarPregunta st pregunta = Except.ok
      { capitulo := capRegexMatch (normalizar pregunta)
        terminoExistencia := detectarExistencia pregunta
        regexVerbos := detectarVerbos pregunta
        personajes := detectarPersonajes st.personajes (normalizar pregunta)
        lugares := detectarLugares st.lugares (normalizar pregunta)
        objetos := detectarObjetos st.objetos (normalizar pregunta)
        fuzzy := if (detectarExistencia pregunta).isNone then
            buscarEventoSimilarE (readEventos st) pregunta
          else none } := by
  unfold analizarPregunta
  rw [readPersonajes_ok st hp, readLugares_ok st hl, readObjetos_ok st ho]

theorem routeGet_ana (st : Store) (q : String) (a : Analysis)
    (hqe : (jsTrim q).data.isEmpty = false)
    (hcap : capRegexMatch (jsTrim q) = none)
    (hana : analizarPregunta st (jsTrim q) = Except.ok a) :
    routeGet st q = tryBody st a := by
  unfold routeGet
  rw [hqe, hcap, hana]
  rfl

theorem routeGet_ana_err (st : Store) (q : String)
    (hqe : (jsTrim q).data.isEmpty = false)
    (hcap : capRegexMatch (jsTrim q) = none)
    (hana : analizarPregunta st (jsTrim q) = Except.error ()) :
    routeGet st q = RouteResult.unhandled := by
  unfold routeGet
  rw [hqe, hcap, hana]
  rfl

theorem tryBody_no_chapter (st : Store) (a : Analysis) (h : a.capitulo = none) :
    tryBody st a = tryRest st a := by
  unfold tryBody
  rw [h]

theorem tryRest_no_fuzzy (st : Store) (a : Analysis) (h : a.fuzzy = none) :
    tryRest st a = tryResolve st a := by
  unfold tryRest
  rw [h]

theorem resolveP_step (st : Store) (nombres : List String) (h : st.personajesFail = false) :
    (if nombres.isEmpty then Except.ok [] else
      (readPersonajes st).map (fun bd => resolvePersonajeIds bd nombres) :
      Except Unit (List Nat)) =
    Except.ok (resolvePersonajeIds st.personajes nombres) := by
  by_cases hn : nombres.isEmpty
  · rw [if_pos hn]
    rw [List.isEmpty_iff] at hn
    subst hn
    simp [resolvePersonajeIds]
  · rw [if_neg hn, readPersonajes_ok st h]
    rfl

theorem resolveL_step (st : Store) (nombres : List String) (h : st.lugaresFail = false) :
    (if nombres.isEmpty then Except.ok [] else
      (readLugares st).map (fun bd => resolveLugarIds bd nombres) :
      Except Unit (List Nat)) =
    Except.ok (resolveLugarIds st.lugares nombres) := by
  by_cases hn : nombres.isEmpty
  · rw [if_pos hn]
    rw [List.isEmpty_iff] at hn
    subst hn
    simp [resolveLugarIds]
  · rw [if_neg hn, readLugares_ok st h]
    rfl

theorem resolveO_step (st : Store) (nombres : List String) (h : st.objetosFail = false) :
    (if nombres.isEmpty then Except.ok [] else
      (readObjetos st).map (fun bd => resolveEventosDesdeObjetos bd nombres) :
      Except Unit (List Nat)) =
    Except.ok (resolveEventosDesdeObjetos st.objetos nombres) := by
  by_cases hn : nombres.isEmpty
  · rw [if_pos hn]
    rw [List.isEmpty_iff] at hn
    subst hn
    simp [resolveEventosDesdeObjetos]
  · rw [if_neg hn, readObjetos_ok st h]
    rfl

theorem tryResolve_ok (st : Store) (a : Analysis)
    (hp : st.personajesFail = false) (hl : st.lugaresFail = false)
    (ho : st.objetosFail = false) :
    tryResolve st a = tryQuery st a (resolvePersonajeIds st.personajes a.personajes)
      (resolveLugarIds st.lugares a.lugares)
      (resolveEventosDesdeObjetos st.objetos a.objetos) := by
  unfold tryResolve
  rw [resolveP_step st a.personajes hp, resolveL_step st a.lugares hl,
    resolveO_step st a.objetos ho]

theorem tryQuery_existencia (st : Store) (a : Analysis) (t : String)
    (pIds lIds oIds : List Nat) (h : a.terminoExistencia = some t)
    (he : st.eventosFail = false) :
    tryQuery st a pIds lIds oIds =
      RouteResult.ok CapTag.existencia (eventosExistencia st.eventos t) (some t) := by
  unfold tryQuery
  rw [h, readEventos_ok st he]

theorem tryQuery_existencia_err (st : Store) (a : Analysis) (t : String)
    (pIds lIds oIds : List Nat) (h : a.terminoExistencia = some t)
    (he : st.eventosFail = true) :
    tryQuery st a pIds lIds oIds = RouteResult.internalError := by
  unfold tryQuery
  rw [h, readEventos_err st he]

theorem tryQuery_filtro (st : Store) (a : Analysis) (pIds lIds oIds : List Nat)
    (h : a.terminoExistencia = none)
    (hg : (a.regexVerbos.isEmpty && pIds.isEmpty && lIds.isEmpty && oIds.isEmpty) = false)
    (he : st.eventosFail = false) :
    tryQuery st a pIds lIds oIds = RouteResult.ok CapTag.todos
      (fallbackCascade st.eventos pIds lIds oIds
        (st.eventos.filter (matchesFiltro a.regexVerbos pIds lIds oIds))) none := by
  unfold tryQuery
  rw [h, hg, readEventos_ok st he]
  rfl

theorem eventosExistencia_nodup (evs : List Evento) (t : String)
    (hnd : (evs.map (fun e => e.id)).Nodup) :
    eventosExistencia evs t = evs.filter (fun e =>
      containsRun (normalizarTextoRoute t).data (normalizarTextoRoute e.nombre).data ||
      containsRun (normalizarTextoRoute t).data
        (normalizarTextoRoute (e.descripcion.getD "")).data) := by
  unfold eventosExistencia
  apply List.filter_congr
  intro e he
  cases hc : (evs.filter (fun e =>
      containsRun (normalizarTextoRoute t).data (normalizarTextoRoute e.nombre).data ||
      containsRun (normalizarTextoRoute t).data
        (normalizarTextoRoute (e.descripcion.getD "")).data)).map (fun x => x.id)
      |>.contains e.id with
  | true =>
      have hmem := List.mem_of_elem_eq_true hc
      obtain ⟨e', he', hid⟩ := List.mem_map.mp hmem
      obtain ⟨he'evs, hpred⟩ := List.mem_filter.mp he'
      have : e' = e := List.inj_on_of_nodup_map hnd he'evs he hid
      rw [← this]
      exact hpred.symm
  | false =>
      cases hp : (containsRun (normalizarTextoRoute t).data
          (normalizarTextoRoute e.nombre).data ||
        containsRun (normalizarTextoRoute t).data
          (normalizarTextoRoute (e.descripcion.getD "")).data) with
      | false => rfl
      | true =>
          exfalso
          have hmem : e.id ∈ (evs.filter (fun e =>
              containsRun (normalizarTextoRoute t).data
                (normalizarTextoRoute e.nombre).data ||
              containsRun (normalizarTextoRoute t).data
                (normalizarTextoRoute (e.descripcion.getD "")).data)).map
              (fun x => x.id) :=
            List.mem_map.mpr ⟨e, List.mem_filter.mpr ⟨he, hp⟩, rfl⟩
          have hcontr := List.elem_eq_true_of_mem hmem
          exact Bool.noConfusion (hcontr.symm.trans hc)


/-- C7: a raw question matching the chapter pattern short-circuits: if a
chapter with the parsed number exists, its populated events are returned
tagged with the number; if not, the result is the empty event list tagged
with the number — a normal response, not an error.  The concrete conjunct
is the claim's example: "capítulo 3" against a store with no chapter 3. -/
theorem chapter_shortcut_claim :
    (∀ (st : Store) (q : String) (n : Nat),
      (jsTrim q).data.isEmpty = false →
      capRegexMatch (jsTrim q) = some n →
      st.capitulosFail = false → st.eventosFail = false →
      (st.capitulos.find? (fun c => c.numero = n) = none →
        routeGet st q = RouteResult.ok (CapTag.num n) [] none) ∧
      (∀ cap, st.capitulos.find? (fun c => c.numero = n) = some cap →
        routeGet st q = RouteResult.ok (CapTag.num n)
          (populateEventos st.eventos cap.eventos) none)) ∧
    routeGet
      { capitulos := [], personajes := [], lugares := [], objetos := [],
        eventos := [] } "capítulo 3" = RouteResult.ok (CapTag.num 3) [] none := by
  refine ⟨?_, by decide⟩
  intro st q n hqe hcap hcf hef
  constructor
  · intro hfind
    unfold routeGet
    rw [hqe, hcap, readCapitulos_ok st hcf]
    show (match st.capitulos.find? (fun c => c.numero = n) with
          | none => RouteResult.ok (CapTag.num n) [] none
          | some cap =>
              match readEventos st with
              | Except.error _ => RouteResult.unhandled
              | Except.ok evs =>
                  RouteResult.ok (CapTag.num n) (populateEventos evs cap.eventos) none) =
        RouteResult.ok (CapTag.num n) [] none
    rw [hfind]
  · intro cap hfind
    unfold routeGet
    rw [hqe, hcap, readCapitulos_ok st hcf]
    show (match st.capitulos.find? (fun c => c.numero = n) with
          | none => RouteResult.ok (CapTag.num n) [] none
          | some cap =>
              match readEventos st with
              | Except.error _ => RouteResult.unhandled
              | Except.ok evs =>
                  RouteResult.ok (CapTag.num n) (populateEventos evs cap.eventos) none) =
        RouteResult.ok (CapTag.num n) (populateEventos st.eventos cap.eventos) none
    rw [hfind, readEventos_ok st hef]

/-- Witness for `chapter_shortcut_claim`: the found-chapter conjunct at a
store holding chapter 7 with one event. -/
theorem chapter_shortcut_claim_witness :
    routeGet
      { capitulos := [⟨7, [1]⟩], personajes := [], lugares := [], objetos := [],
        eventos := [⟨1, "Ev", none, [], none, none⟩] } "capítulo 7" =
      RouteResult.ok (CapTag.num 7)
        (populateEventos [⟨1, "Ev", none, [], none, none⟩] [1]) none :=
  (chapter_shortcut_claim.1
      { capitulos := [⟨7, [1]⟩], personajes := [], lugares := [], objetos := [],
        eventos := [⟨1, "Ev", none, [], none, none⟩] } "capítulo 7" 7
      (by decide) (by decide) rfl rfl).2 ⟨7, [1]⟩ (by decide)

/-- C2 counterexample: two existence questions.  For "¿Hubo alguna
García?" the response's term field carries the folded "garcia", not the
original un-folded term.  For "¿Hubo alguna guerra-civil?" the event "La
guerracivil" is returned although its folded name does not contain the
folded term "guerra-civil" — the route additionally strips non-word
characters before the containment test. -/
theorem existence_branch_counterexample :
    routeGet
      { capitulos := [], personajes := [], lugares := [], objetos := [],
        eventos := [⟨1, "La masacre", none, [], none, none⟩] } "¿Hubo alguna García?" =
      RouteResult.ok CapTag.existencia [] (some "garcia") ∧
    ("garcia" : String) ≠ "garcía" ∧
    routeGet
      { capitulos := [], personajes := [], lugares := [], objetos := [],
        eventos := [⟨1, "La guerracivil", none, [], none, none⟩] }
      "¿Hubo alguna guerra-civil?" =
      RouteResult.ok CapTag.existencia [⟨1, "La guerracivil", none, [], none, none⟩]
        (some "guerra-civil") ∧
    containsRun (limpiarTexto "guerra-civil").data (limpiarTexto "La guerracivil").data =
      false := by
  refine ⟨by decide, by decide, by decide, by decide⟩

/-- C2 as amended: when the existence term is detected, the route scans
all events for containment of the term in name or description after
`normalizarTextoRoute` (fold plus removal of non-word, non-space
characters), with no verb or entity filter, tags the result "existencia",
and attaches the already-folded detected term (not the original
spelling). -/
theorem existence_branch_amended :
    ∀ (st : Store) (q t : String),
      (jsTrim q).data.isEmpty = false →
      capRegexMatch (jsTrim q) = none →
      capRegexMatch (normalizar (jsTrim q)) = none →
      detectarExistencia (jsTrim q) = some t →
      st.personajesFail = false → st.lugaresFail = false → st.objetosFail = false →
      st.eventosFail = false →
      (st.eventos.map (fun e => e.id)).Nodup →
      routeGet st q = RouteResult.ok CapTag.existencia
        (st.eventos.filter (fun e =>
          containsRun (normalizarTextoRoute t).data (normalizarTextoRoute e.nombre).data ||
          containsRun (normalizarTextoRoute t).data
            (normalizarTextoRoute (e.descripcion.getD "")).data)) (some t) := by
  intro st q t hqe hcap hcapn hterm hp hl ho he hnd
  rw [routeGet_ana st q _ hqe hcap (analizarPregunta_ok st (jsTrim q) hp hl ho)]
  rw [hterm, hcapn]
  refine ((tryBody_no_chapter st _ rfl).trans ?_)
  refine ((tryRest_no_fuzzy st _ rfl).trans ?_)
  refine ((tryResolve_ok st _ hp hl ho).trans ?_)
  refine ((tryQuery_existencia st _ t _ _ _ rfl he).trans ?_)
  rw [eventosExistencia_nodup st.eventos t hnd]

/-- Witness for `existence_branch_amended`: the question "¿Hubo alguna
guerra?" against a one-event store. -/
theorem existence_branch_amended_witness :
    routeGet
      { capitulos := [], personajes := [], lugares := [], objetos := [],
        eventos := [⟨5, "La guerra", none, [], none, none⟩] } "¿Hubo alguna guerra?" =
      RouteResult.ok CapTag.existencia
        (([(⟨5, "La guerra", none, [], none, none⟩ : Evento)]).filter (fun e =>
          containsRun (normalizarTextoRoute "guerra").data
            (normalizarTextoRoute e.nombre).data ||
          containsRun (normalizarTextoRoute "guerra").data
            (normalizarTextoRoute (e.descripcion.getD "")).data)) (some "guerra") :=
  existence_branch_amended
    { capitulos := [], personajes := [], lugares := [], objetos := [],
      eventos := [⟨5, "La guerra", none, [], none, none⟩] }
    "¿Hubo alguna guerra?" "guerra" (by decide) (by decide) (by decide) (by decide)
    rfl rfl rfl rfl (by decide)

/-- C1 counterexample: question "maria espejo"; the matched object
references the dangling event id 99, the matched character María is
involved in the stored event.  The primary filter is empty, the object
fallback fires because its id list is non-empty, its query result is
empty, and the character fallback — which would be non-empty — is never
consulted: the route answers with the empty set, falsifying "the first
non-empty set is returned". -/
theorem fallback_cascade_counterexample :
    routeGet
      { capitulos := [], personajes := [⟨1, "Maria"⟩], lugares := [],
        objetos := [⟨1, "Espejo", some 99⟩],
        eventos := [⟨2, "La pelea", none, [1], none, none⟩] } "maria espejo" =
      RouteResult.ok CapTag.todos [] none ∧
    resolveEventosDesdeObjetos [⟨1, "Espejo", some 99⟩]
      (detectarObjetos [⟨1, "Espejo", some 99⟩] (normalizar "maria espejo")) = [99] ∧
    ([(⟨2, "La pelea", none, [1], none, none⟩ : Evento)]).filter
      (fun e => ([99] : List Nat).contains e.id) = [] ∧
    resolvePersonajeIds [⟨1, "Maria"⟩]
      (detectarPersonajes [⟨1, "Maria"⟩] (normalizar "maria espejo")) = [1] ∧
    ([(⟨2, "La pelea", none, [1], none, none⟩ : Evento)]).filter
      (fun e => e.personajes_involucrados.any (fun i => ([1] : List Nat).contains i)) =
      [⟨2, "La pelea", none, [1], none, none⟩] := by
  refine ⟨?_, by decide, by decide, by decide, by decide⟩
  have hs : calcularScore (normalizar "maria espejo").data
      (candidatoTexto ⟨2, "La pelea", none, [1], none, none⟩).data = 0 := by
    show (((((jsSplitWS (normalizar "maria espejo").data).dedup).filter (fun p =>
        (jsSplitWS
          (candidatoTexto ⟨2, "La pelea", none, [1], none, none⟩).data).contains p)).length :
        ℚ)) /
      (max (((jsSplitWS (normalizar "maria espejo").data).dedup.length : Nat) : ℚ) 1) = 0
    rw [show (((jsSplitWS (normalizar "maria espejo").data).dedup).filter (fun p =>
        (jsSplitWS
          (candidatoTexto ⟨2, "La pelea", none, [1], none, none⟩).data).contains p)) =
      ([] : List (List Char)) from by decide]
    rw [show (jsSplitWS (normalizar "maria espejo").data).dedup.length = 2 from by decide]
    norm_num
  have hcore : buscarEventoSimilarCore (normalizar "maria espejo")
      [⟨2, "La pelea", none, [1], none, none⟩] = none := by
    show (if (1 : ℚ)/5 <
        (pickTopAux ((⟨2, "La pelea", none, [1], none, none⟩ : Evento),
          calcularScore (normalizar "maria espejo").data
            (candidatoTexto ⟨2, "La pelea", none, [1], none, none⟩).data) []).2 then
        some (pickTopAux ((⟨2, "La pelea", none, [1], none, none⟩ : Evento),
          calcularScore (normalizar "maria espejo").data
            (candidatoTexto ⟨2, "La pelea", none, [1], none, none⟩).data) []).1
      else none) = none
    rw [show (pickTopAux ((⟨2, "La pelea", none, [1], none, none⟩ : Evento),
        calcularScore (normalizar "maria espejo").data
          (candidatoTexto ⟨2, "La pelea", none, [1], none, none⟩).data) []).2 =
      calcularScore (normalizar "maria espejo").data
        (candidatoTexto ⟨2, "La pelea", none, [1], none, none⟩).data from rfl]
    rw [hs]
    rw [if_neg (by norm_num)]
  have hb : buscarEventoSimilarE
      (Except.ok [(⟨2, "La pelea", none, [1], none, none⟩ : Evento)]) "maria espejo" =
      none := by
    unfold buscarEventoSimilarE
    exact hcore
  have hroute := routeGet_ana
    { capitulos := [], personajes := [⟨1, "Maria"⟩], lugares := [],
      objetos := [⟨1, "Espejo", some 99⟩],
      eventos := [⟨2, "La pelea", none, [1], none, none⟩] }
    "maria espejo" _ (by decide) (by decide)
    (analizarPregunta_ok _ (jsTrim "maria espejo") rfl rfl rfl)
  rw [hroute]
  rw [show jsTrim "maria espejo" = "maria espejo" from by decide]
  rw [show detectarExistencia "maria espejo" = none from by decide]
  rw [show capRegexMatch (normalizar "maria espejo") = none from by decide]
  rw [show readEventos
      { capitulos := [], personajes := [⟨1, "Maria"⟩], lugares := [],
        objetos := [⟨1, "Espejo", some 99⟩],
        eventos := [⟨2, "La pelea", none, [1], none, none⟩] } =
      Except.ok [(⟨2, "La pelea", none, [1], none, none⟩ : Evento)] from rfl]
  rw [hb]
  refine ((tryBody_no_chapter _ _ rfl).trans ?_)
  refine ((tryRest_no_fuzzy _ _ rfl).trans ?_)
  refine ((tryResolve_ok _ _ rfl rfl rfl).trans ?_)
  refine ((tryQuery_filtro _ _ _ _ _ rfl (by decide) rfl).trans ?_)
  decide

/-- C1 as amended: the fallbacks are keyed on the non-emptiness of the
matched id lists in the fixed priority order objects, characters, places;
the first fallback whose id list is non-empty is executed and its query
result is returned even when that result is empty, the later fallbacks
never being consulted; with a non-empty primary result, or with every id
list empty, the primary result stands; and the route's non-existence
query path is exactly this cascade applied to the primary conjunctive
filter, tagged "todos". -/
theorem fallback_cascade_amended :
    (∀ (evs : List Evento) (pIds lIds oIds : List Nat) (resultados : List Evento),
      (resultados ≠ [] →
        fallbackCascade evs pIds lIds oIds resultados = resultados) ∧
      (resultados = [] → oIds ≠ [] →
        fallbackCascade evs pIds lIds oIds resultados =
          evs.filter (fun e => oIds.contains e.id)) ∧
      (resultados = [] → oIds = [] → pIds ≠ [] →
        fallbackCascade evs pIds lIds oIds resultados =
          evs.filter (fun e => e.personajes_involucrados.any (fun i => pIds.contains i))) ∧
      (resultados = [] → oIds = [] → pIds = [] → lIds ≠ [] →
        fallbackCascade evs pIds lIds oIds resultados =
          evs.filter (fun e =>
            match e.lugar_relacionado with
            | some l => lIds.contains l
            | none => false)) ∧
      (resultados = [] → oIds = [] → pIds = [] → lIds = [] →
        fallbackCascade evs pIds lIds oIds resultados = [])) ∧
    (∀ (st : Store) (a : Analysis) (pIds lIds oIds : List Nat),
      a.terminoExistencia = none →
      (a.regexVerbos.isEmpty && pIds.isEmpty && lIds.isEmpty && oIds.isEmpty) = false →
      st.eventosFail = false →
      tryQuery st a pIds lIds oIds = RouteResult.ok CapTag.todos
        (fallbackCascade st.eventos pIds lIds oIds
          (st.eventos.filter (matchesFiltro a.regexVerbos pIds lIds oIds))) none) := by
  constructor
  · intro evs pIds lIds oIds resultados
    refine ⟨?_, ?_, ?_, ?_, ?_⟩
    · intro hres
      have h1 : resultados.isEmpty = false := by
        cases resultados with
        | nil => exact absurd rfl hres
        | cons x xs => rfl
      unfold fallbackCascade
      rw [h1]
      rfl
    · intro hres ho
      subst hres
      have h1 : oIds.isEmpty = false := by
        cases oIds with
        | nil => exact absurd rfl ho
        | cons x xs => rfl
      unfold fallbackCascade
      rw [h1]
      rfl
    · intro hres ho hp
      subst hres
      subst ho
      have h1 : pIds.isEmpty = false := by
        cases pIds with
        | nil => exact absurd rfl hp
        | cons x xs => rfl
      unfold fallbackCascade
      rw [h1]
      rfl
    · intro hres ho hp hl
      subst hres
      subst ho
      subst hp
      have h1 : lIds.isEmpty = false := by
        cases lIds with
        | nil => exact absurd rfl hl
        | cons x xs => rfl
      unfold fallbackCascade
      rw [h1]
      rfl
    · intro hres ho hp hl
      subst hres
      subst ho
      subst hp
      subst hl
      rfl
  · intro st a pIds lIds oIds h hg he
    exact tryQuery_filtro st a pIds lIds oIds h hg he

/-- Witness for `fallback_cascade_amended`: the object fallback fires on
the dangling id 99 and returns the empty set even though the store's
event exists. -/
theorem fallback_cascade_amended_witness :
    fallbackCascade [(⟨2, "La pelea", none, [1], none, none⟩ : Evento)] [1] [] [99] [] =
      ([(⟨2, "La pelea", none, [1], none, none⟩ : Evento)]).filter
        (fun e => ([99] : List Nat).contains e.id) ∧
    ([(⟨2, "La pelea", none, [1], none, none⟩ : Evento)]).filter
      (fun e => ([99] : List Nat).contains e.id) = [] :=
  ⟨(fallback_cascade_amended.1 [⟨2, "La pelea", none, [1], none, none⟩] [1] [] [99] []).2.1
      rfl (by decide),
    by decide⟩

/-- C8 counterexample: with the events collection failing (all other
collections healthy), the question "zzz" flows through the fuzzy search —
whose read failure is caught and turned into "no match" — and the route
then returns the successfully-computed empty result tagged "todos"
instead of surfacing an internal error. -/
theorem store_failure_counterexample :
    routeGet
      { capitulos := [], personajes := [], lugares := [], objetos := [],
        eventos := [], eventosFail := true } "zzz" =
      RouteResult.ok CapTag.todos [] none ∧
    Store.eventosFail
      { capitulos := [], personajes := [], lugares := [], objetos := [],
        eventos := [], eventosFail := true } = true ∧
    buscarEventoSimilarE (Except.error ()) "zzz" = none := by
  refine ⟨by decide, rfl, rfl⟩

/-- C8 as amended: a failing events read inside the fuzzy ranker is
caught and becomes "no match"; a failing events read inside the `try`
block (here: the existence branch) surfaces as the generic internal
error; and a failing characters read in the analysis — performed before
the `try` block — is not converted to the generic error at all (an
unhandled rejection in Express 4). -/
theorem store_failure_amended :
    (∀ pregunta : String, buscarEventoSimilarE (Except.error ()) pregunta = none) ∧
    (∀ (st : Store) (q t : String),
      (jsTrim q).data.isEmpty = false →
      capRegexMatch (jsTrim q) = none →
      capRegexMatch (normalizar (jsTrim q)) = none →
      detectarExistencia (jsTrim q) = some t →
      st.personajesFail = false → st.lugaresFail = false → st.objetosFail = false →
      st.eventosFail = true →
      routeGet st q = RouteResult.internalError) ∧
    (∀ (st : Store) (q : String),
      (jsTrim q).data.isEmpty = false →
      capRegexMatch (jsTrim q) = none →
      st.personajesFail = true →
      routeGet st q = RouteResult.unhandled) := by
  refine ⟨fun pregunta => rfl, ?_, ?_⟩
  · intro st q t hqe hcap hcapn hterm hp hl ho he
    rw [routeGet_ana st q _ hqe hcap (analizarPregunta_ok st (jsTrim q) hp hl ho)]
    rw [hterm, hcapn]
    refine ((tryBody_no_chapter st _ rfl).trans ?_)
    refine ((tryRest_no_fuzzy st _ rfl).trans ?_)
    refine ((tryResolve_ok st _ hp hl ho).trans ?_)
    exact tryQuery_existencia_err st _ t _ _ _ rfl he
  · intro st q hqe hcap hp
    have hana : analizarPregunta st (jsTrim q) = Except.error () := by
      unfold analizarPregunta
      rw [readPersonajes_err st hp]
    exact routeGet_ana_err st q hqe hcap hana

/-- Witness for `store_failure_amended`: the internal-error conjunct on
an existence question with the events read failing, and the unhandled
conjunct with the characters read failing. -/
theorem store_failure_amended_witness :
    routeGet
      { capitulos := [], personajes := [], lugares := [], objetos := [],
        eventos := [⟨1, "x", none, [], none, none⟩], eventosFail := true }
      "¿hubo alguna guerra?" = RouteResult.internalError ∧
    routeGet
      { capitulos := [], personajes := [], lugares := [], objetos := [],
        eventos := [], personajesFail := true } "hola" = RouteResult.unhandled :=
  ⟨store_failure_amended.2.1
      { capitulos := [], personajes := [], lugares := [], objetos := [],
        eventos := [⟨1, "x", none, [], none, none⟩], eventosFail := true }
      "¿hubo alguna guerra?" "guerra" (by decide) (by decide) (by decide) (by decide)
      rfl rfl rfl rfl,
    store_failure_amended.2.2
      { capitulos := [], personajes := [], lugares := [], objetos := [],
        eventos := [], personajesFail := true } "hola" (by decide) (by decide) rfl⟩

end Cien
